import Mathlib

/-!
# Verification of the Agente command-interpreting agent (src/Agente.py)

This file gives a shallow embedding, in Lean 4, of the action-dispatch and
sandboxing subsystem of `src/Agente.py`, and proves (or refutes) the frozen
claims about it.

Modelling conventions:
* Python strings are Lean `String`s; `str.strip()`, `str.lower()`, slicing and
  friends are modelled by explicit helper functions over the ASCII whitespace
  set (the agent only manipulates such data).
* Filesystem paths are lists of path segments (`AgPath`), rendered in POSIX
  style (`"/" ++ intercalate "/"`), matching `str(Path)` after `resolve()`.
* The filesystem is a functional state `FS`: an association list from absolute
  paths to file contents, plus a list of directories created with `mkdir`.
  Ancestors of any recorded entry implicitly exist, mirroring a real tree.
* Python exceptions escaping a function are modelled with `Except String`;
  a raised exception is `.error msg`.  `try/except` blocks in the source are
  modelled by matching on the corresponding `Except` value.  Messages produced
  by the Python runtime (e.g. `str(e)` of a `FileNotFoundError`) are not
  specified by the source text; they are modelled by fixed descriptive strings.
* Operator console input (approval prompts, the delete confirmation) is passed
  in explicitly (`Console`), and the global `APPROVAL_REQUIRED` flag is a field
  of `Config`.
-/

set_option maxRecDepth 10000

namespace Agente

/-! ## Python string helpers -/

/-- ASCII whitespace, the character class stripped by `str.strip()` and matched
by the regex class used in the router (the agent never feeds it non-ASCII
whitespace). -/
def isPySpace (c : Char) : Bool :=
  c = ' ' || c = '\t' || c = '\n' || c = '\r' || c = '\x0b' || c = '\x0c'

/-- `str.strip()`: remove leading and trailing whitespace. -/
def pyStrip (s : String) : String :=
  String.mk (((s.data.dropWhile isPySpace).reverse.dropWhile isPySpace).reverse)

/-- `str.lstrip(chars)`: remove leading characters belonging to `chars`. -/
def pyLStrip (s : String) (chars : List Char) : String :=
  String.mk (s.data.dropWhile (fun c => chars.contains c))

/-- `str.strip(chars)`: remove leading and trailing characters from `chars`. -/
def pyStripChars (s : String) (chars : List Char) : String :=
  String.mk ((((s.data.dropWhile (chars.contains ·)).reverse.dropWhile
    (chars.contains ·)).reverse))

/-- `str.lower()` (ASCII). -/
def pyLower (s : String) : String :=
  String.mk (s.data.map Char.toLower)

/-- `a.startswith(b)` / string prefix test, computed over character lists. -/
def strIsPre (p s : String) : Bool := p.data.isPrefixOf s.data

/-- Substring test over character lists (`needle in haystack` in Python). -/
def listContainsSub (hay needle : List Char) : Bool :=
  match hay with
  | [] => needle.isEmpty
  | _ :: t => needle.isPrefixOf hay || listContainsSub t needle

/-- `needle in haystack` for strings. -/
def pyContains (hay needle : String) : Bool :=
  listContainsSub hay.data needle.data

/-- Python slicing `s[:k]` with a possibly negative bound. -/
def pySliceTo (s : String) (k : Int) : String :=
  if k < 0 then
    String.mk (s.data.take (s.length - (-k).toNat))
  else
    String.mk (s.data.take k.toNat)

/-- `str.splitlines()` restricted to `\n` separators: like `splitOn "\n"` but
without a trailing empty line, and `[]` on the empty string. -/
def pySplitlines (s : String) : List String :=
  if s = "" then []
  else
    let l := (s.data.splitOnP (fun c => c = '\n')).map String.mk
    if l.getLast? = some "" then l.dropLast else l

/-! ## Paths and the filesystem state -/

/-- An absolute filesystem path as the list of its segments from the root. -/
abbrev AgPath := List String

/-- Render a path the way `str(Path)` renders a resolved POSIX path. -/
def pathStr (p : AgPath) : String :=
  "/" ++ String.intercalate "/" p

/-- Split a relative path string on separators (the agent accepts both `/` and
`\`, cf. the `lstrip("\\/")` in `safe_path`). -/
def splitSegs (s : String) : List String :=
  (s.data.splitOnP (fun c => c = '/' || c = '\\')).map String.mk

/-- Lexical resolution of relative segments against a base, as performed by
`Path.resolve()` in the absence of symlinks: `.` and empty segments vanish,
`..` pops (never above the filesystem root). -/
def resolveSegs (acc : AgPath) : List String → AgPath
  | [] => acc
  | s :: rest =>
    if s = "" || s = "." then resolveSegs acc rest
    else if s = ".." then resolveSegs acc.dropLast rest
    else resolveSegs (acc ++ [s]) rest

/-- `Path.name`: the final path component (empty at the root). -/
def lastName (p : AgPath) : String := p.getLast?.getD ""

/-- The functional filesystem state: regular files (path, content) plus
directories explicitly created by `mkdir`.  Ancestors of any entry exist
implicitly. -/
structure FS where
  files : List (AgPath × String)
  dirs : List AgPath
deriving Repr, DecidableEq

/-- First-match association lookup among the files. -/
def lookupF : List (AgPath × String) → AgPath → Option String
  | [], _ => none
  | (q, c) :: rest, p => if q = p then some c else lookupF rest p

/-- Remove every entry at a path. -/
def eraseF (l : List (AgPath × String)) (p : AgPath) : List (AgPath × String) :=
  l.filter (fun e => e.1 ≠ p)

/-- Write (create or overwrite) a file. -/
def insertF (l : List (AgPath × String)) (p : AgPath) (c : String) :
    List (AgPath × String) :=
  (p, c) :: eraseF l p

/-- A regular file exists at `p`. -/
def isFile (st : FS) (p : AgPath) : Bool :=
  (lookupF st.files p).isSome

/-- A directory exists at `p`: `p` is an ancestor of (or equal to) the
workspace root or a created directory, or a proper ancestor of a file. -/
def isDirAt (st : FS) (ws p : AgPath) : Bool :=
  p.isPrefixOf ws
    || st.dirs.any (fun d => p.isPrefixOf d)
    || st.files.any (fun e => p ≠ e.1 && p.isPrefixOf e.1)

/-- `Path.exists()`. -/
def pathExists (st : FS) (ws p : AgPath) : Bool :=
  isFile st p || isDirAt st ws p

/-- `Path.mkdir(parents=True, exist_ok=True)`: raises (models
`FileExistsError`/`NotADirectoryError`) when a regular file occupies the path
or one of its ancestors; otherwise records the directory. -/
def mkdirParents (st : FS) (ws p : AgPath) : Except String FS :=
  if st.files.any (fun e => e.1.isPrefixOf p) then
    Except.error "FileExistsError: existe un archivo en la ruta del directorio"
  else if isDirAt st ws p then pure st
  else pure { st with dirs := p :: st.dirs }

/-- `Path.unlink()` on a regular file. -/
def fsErasePath (st : FS) (p : AgPath) : FS :=
  { st with files := eraseF st.files p }

/-- `Path.write_text(content)` on a non-directory path. -/
def fsWrite (st : FS) (p : AgPath) (c : String) : FS :=
  { st with files := insertF st.files p c }

/-! ## Configuration, console, security layer -/

/-- Process-wide configuration relevant to the core (`APPROVAL_REQUIRED`, and
the current date used by `create_project_folder`). -/
structure Config where
  approvalRequired : Bool
  today : String := "2026-10-12"
deriving Repr, DecidableEq

/-- The operator's console answers consumed by one tool call: the approval
prompt answer and (for `delete_file`) the retyped file name. -/
structure Console where
  ans1 : String
  ans2 : String := ""
deriving Repr, DecidableEq

/-- `safe_path` (src/Agente.py:83): strips the input, removes leading
separators, joins to the workspace root, resolves, and accepts iff the
*string* rendering of the result has the root's string rendering as a prefix.
An accepted path is returned; a rejected one raises `ValueError`. -/
def safe_path (ws : AgPath) (rel_path : String) : Except String AgPath :=
  let r := pyLStrip (pyStrip rel_path) ['\\', '/']
  let p := resolveSegs ws (splitSegs r)
  if strIsPre (pathStr ws) (pathStr p) then Except.ok p
  else Except.error "Ruta inválida: fuera del workspace."

/-- `require_approval` (src/Agente.py:90): auto-approves when
`APPROVAL_REQUIRED` is off, otherwise accepts exactly the answer whose
stripped, lowered form is `"s"`. -/
def require_approval (cfg : Config) (ans : String) : Bool :=
  if !cfg.approvalRequired then true
  else pyLower (pyStrip ans) = "s"

/-- `double_confirm_delete` (src/Agente.py:97): first gate is
`require_approval`; second gate compares the stripped typed input with the
file name, case-sensitively. -/
def double_confirm_delete (cfg : Config) (con : Console) (filePath : AgPath) :
    Bool :=
  if !require_approval cfg con.ans1 then false
  else pyStrip con.ans2 = lastName filePath

/-- Nesting in the sense of the specification: the workspace root is a path
prefix (componentwise) of the result. -/
def nestedUnder (ws p : AgPath) : Bool := ws.isPrefixOf p

/-- A demonstration workspace root, `/home/AGENT_WORKSPACE`. -/
def wsDemo : AgPath := ["home", "AGENT_WORKSPACE"]

/-- Decidable equality for `Except`, written computationally so that `decide`
can evaluate concrete tool runs. -/
def exceptDecEq {ε α : Type} [DecidableEq ε] [DecidableEq α] :
    (a b : Except ε α) → Decidable (a = b)
  | .error e, .error f =>
    if h : e = f then isTrue (by rw [h])
    else isFalse (fun hh => by cases hh; exact h rfl)
  | .error _, .ok _ => isFalse (fun hh => by cases hh)
  | .ok _, .error _ => isFalse (fun hh => by cases hh)
  | .ok a, .ok b =>
    if h : a = b then isTrue (by rw [h])
    else isFalse (fun hh => by cases hh; exact h rfl)

instance {ε α : Type} [DecidableEq ε] [DecidableEq α] : DecidableEq (Except ε α) :=
  exceptDecEq

/-! ## JSON values

Python `dict`/`list`/`str`/`bool`/`int`/`None` values, as produced by
`json.loads` and returned by the tools (`ToolResult` is a `dict`). -/

inductive Json where
  | null
  | bool (b : Bool)
  /-- A JSON number, kept as its source numeral text. -/
  | num (raw : String)
  | str (s : String)
  | arr (elems : List Json)
  | obj (fields : List (String × Json))

/-- `dict.get(k)`: fields are key-unique by construction (`objInsert`). -/
def objGet (j : Json) (k : String) : Option Json :=
  match j with
  | .obj fields => lookupJ fields k
  | _ => none
where
  lookupJ : List (String × Json) → String → Option Json
    | [], _ => none
    | (k', v) :: rest, k => if k' = k then some v else lookupJ rest k

/-- Python `dict` insertion: an existing key is updated in place, a new key is
appended (insertion order preserved). -/
def objInsert (fields : List (String × Json)) (k : String) (v : Json) :
    List (String × Json) :=
  if fields.any (fun e => e.1 = k) then
    fields.map (fun e => if e.1 = k then (k, v) else e)
  else fields ++ [(k, v)]

/-- Truthiness of a numeral text: zero mantissas are falsy. -/
def numTruthy (raw : String) : Bool :=
  raw = "NaN" || raw = "Infinity" || raw = "-Infinity"
    || (raw.data.takeWhile (fun c => c ≠ 'e' && c ≠ 'E')).any
        (fun c => c.isDigit && c ≠ '0')

/-- Python truthiness of a JSON value. -/
def pyTruthy : Json → Bool
  | .null => false
  | .bool b => b
  | .num raw => numTruthy raw
  | .str s => s ≠ ""
  | .arr l => !l.isEmpty
  | .obj f => !f.isEmpty

mutual

/-- Python `repr` of a JSON value (used by `str` on containers and by
f-string interpolation of tool results).  String quoting is approximated with
plain single quotes. -/
def pyRepr : Json → String
  | .null => "None"
  | .bool true => "True"
  | .bool false => "False"
  | .num raw => raw
  | .str s => "\x27" ++ s ++ "\x27"
  | .arr elems => "[" ++ String.intercalate ", " (pyReprList elems) ++ "]"
  | .obj fields => "\x7b" ++ String.intercalate ", " (pyReprFields fields) ++ "\x7d"

def pyReprList : List Json → List String
  | [] => []
  | j :: rest => pyRepr j :: pyReprList rest

def pyReprFields : List (String × Json) → List String
  | [] => []
  | (k, v) :: rest => ("\x27" ++ k ++ "\x27: " ++ pyRepr v) :: pyReprFields rest

end

/-- Python `str()` of a JSON value. -/
def pyStr : Json → String
  | .null => "None"
  | .bool true => "True"
  | .bool false => "False"
  | .num raw => raw
  | .str s => s
  | .arr elems => pyRepr (.arr elems)
  | .obj fields => pyRepr (.obj fields)

/-! ## `json.loads` -/

/-- JSON insignificant whitespace (space, tab, line feed, carriage return,
compared by code point). -/
def skipJWs (cs : List Char) : List Char :=
  cs.dropWhile (fun c =>
    let n := c.toNat
    n = 32 || n = 9 || n = 10 || n = 13)

/-- Value of a hexadecimal digit, by code-point arithmetic. -/
def hexVal (c : Char) : Option Nat :=
  let n := c.toNat
  if 48 ≤ n && n ≤ 57 then some (n - 48)
  else if 97 ≤ n && n ≤ 102 then some (n - 87)
  else if 65 ≤ n && n ≤ 70 then some (n - 55)
  else none

/-- The single-character escapes of the JSON string grammar and their
decodings. -/
def escTable : List (Char × Char) :=
  [('"', '"'), ('\\', '\\'), ('/', '/'), ('b', '\x08'), ('f', '\x0c'),
   ('n', '\n'), ('r', '\r'), ('t', '\t')]

/-- Parse the remainder of a JSON string literal (after the opening quote),
returning the decoded characters and the rest of the input. -/
def parseJStr (fuel : Nat) (cs : List Char) : Option (List Char × List Char) :=
  match fuel, cs with
  | 0, _ => none
  | _, [] => none
  | fuel + 1, c :: rest =>
    if c = '"' then some ([], rest)
    else if c = '\\' then
      match rest with
      | [] => none
      | e :: rest2 =>
        match escTable.find? (fun pr => pr.1 = e) with
        | some pr => (parseJStr fuel rest2).map (fun r => (pr.2 :: r.1, r.2))
        | none =>
          if e = 'u' then
            match rest2 with
            | h1 :: h2 :: h3 :: h4 :: rest3 =>
              match hexVal h1, hexVal h2, hexVal h3, hexVal h4 with
              | some v1, some v2, some v3, some v4 =>
                (parseJStr fuel rest3).map (fun r =>
                  (Char.ofNat (v4 + 16 * (v3 + 16 * (v2 + 16 * v1))) :: r.1, r.2))
              | _, _, _, _ => none
            | _ => none
          else none
    else if c.toNat < 32 then none
    else (parseJStr fuel rest).map (fun r => (c :: r.1, r.2))

/-- Parse a JSON numeral (grammar `-?(0|[1-9][0-9]*)(\.[0-9]+)?([eE][+-]?[0-9]+)?`),
returning its raw text. -/
def parseJNum (cs : List Char) : Option (String × List Char) :=
  let (sign, cs1) :=
    match cs with
    | '-' :: rest => (['-'], rest)
    | _ => (([] : List Char), cs)
  match cs1 with
  | [] => none
  | d :: _ =>
    if !d.isDigit then none
    else if d = '0' && (cs1.drop 1).head?.any Char.isDigit then none
    else
      let intPart := cs1.takeWhile Char.isDigit
      let cs2 := cs1.dropWhile Char.isDigit
      let (fracPart, cs3) :=
        match cs2 with
        | '.' :: rest =>
          if rest.head?.any Char.isDigit then
            ('.' :: rest.takeWhile Char.isDigit, rest.dropWhile Char.isDigit)
          else (([] : List Char), cs2)
        | _ => (([] : List Char), cs2)
      if cs3.head? = some '.' then none
      else
        let (expPart, cs4) :=
          match cs3 with
          | e :: rest =>
            if e = 'e' || e = 'E' then
              let (esign, rest2) :=
                match rest with
                | s :: r2 => if s = '+' || s = '-' then ([s], r2) else (([] : List Char), rest)
                | [] => (([] : List Char), rest)
              if rest2.head?.any Char.isDigit then
                (e :: esign ++ rest2.takeWhile Char.isDigit, rest2.dropWhile Char.isDigit)
              else (([] : List Char), cs3)
            else (([] : List Char), cs3)
          | [] => (([] : List Char), cs3)
        some (String.mk (sign ++ intPart ++ fracPart ++ expPart), cs4)

/-- A case-sensitive keyword at the head of the input. -/
def dropKw : List Char → List Char → Option (List Char)
  | [], cs => some cs
  | _, [] => none
  | k :: ks, c :: cs => if c = k then dropKw ks cs else none

/-- The keyword literals `json.loads` accepts (`NaN`/`Infinity` are the
Python extensions, on by default), with the value each denotes. -/
def jsonKeywords : List (String × Json) :=
  [("true", .bool true), ("false", .bool false), ("null", .null),
   ("NaN", .num "NaN"), ("Infinity", .num "Infinity"),
   ("-Infinity", .num "-Infinity")]

/-- First keyword matching the head of the input. -/
def matchKw : List (String × Json) → List Char → Option (Json × List Char)
  | [], _ => none
  | kw :: kws, cs =>
    match dropKw kw.1.data cs with
    | some rest => some (kw.2, rest)
    | none => matchKw kws cs

mutual

/-- Recursive-descent JSON value parser (`json.loads` grammar, including the
`NaN`/`Infinity` extensions Python accepts by default).  `fuel` dominates the
input length. -/
def parseJVal (fuel : Nat) (cs : List Char) : Option (Json × List Char) :=
  match fuel with
  | 0 => none
  | fuel + 1 =>
    match skipJWs cs with
    | '\x7b' :: rest => parseJFields fuel rest [] true
    | '[' :: rest => parseJElems fuel rest [] true
    | '"' :: rest =>
      (parseJStr fuel rest).map (fun r => (Json.str (String.mk r.1), r.2))
    | cs' =>
      match matchKw jsonKeywords cs' with
      | some res => some res
      | none => (parseJNum cs').map (fun r => (Json.num r.1, r.2))

/-- Fields of a JSON object, after the opening brace. -/
def parseJFields (fuel : Nat) (cs : List Char) (acc : List (String × Json))
    (isFirst : Bool) : Option (Json × List Char) :=
  match fuel with
  | 0 => none
  | fuel + 1 =>
    match skipJWs cs with
    | '\x7d' :: rest => if isFirst then some (.obj acc, rest) else none
    | '"' :: rest =>
      match parseJStr fuel rest with
      | none => none
      | some (key, rest2) =>
        match skipJWs rest2 with
        | ':' :: rest3 =>
          match parseJVal fuel rest3 with
          | none => none
          | some (v, rest4) =>
            let acc' := objInsert acc (String.mk key) v
            match skipJWs rest4 with
            | ',' :: rest5 => parseJFields fuel rest5 acc' false
            | '\x7d' :: rest5 => some (.obj acc', rest5)
            | _ => none
        | _ => none
    | _ => none

/-- Elements of a JSON array, after the opening bracket. -/
def parseJElems (fuel : Nat) (cs : List Char) (acc : List Json)
    (isFirst : Bool) : Option (Json × List Char) :=
  match fuel with
  | 0 => none
  | fuel + 1 =>
    match skipJWs cs with
    | ']' :: rest => if isFirst then some (.arr acc.reverse, rest) else none
    | cs' =>
      match parseJVal fuel cs' with
      | none => none
      | some (v, rest) =>
        match skipJWs rest with
        | ',' :: rest2 => parseJElems fuel rest2 (v :: acc) false
        | ']' :: rest2 => some (.arr (v :: acc).reverse, rest2)
        | _ => none

end

/-- `json.loads`: parse exactly one JSON document, allowing surrounding
whitespace. -/
def jsonLoads (s : String) : Option Json :=
  match parseJVal (2 * s.length + 8) s.data with
  | some (v, rest) => if (skipJWs rest).isEmpty then some v else none
  | none => none

/-! ## Static configuration tables -/

/-- `EXT_GROUPS` (src/Agente.py:42), in Python dict insertion order. -/
def EXT_GROUPS : List (String × List String) :=
  [("imagenes", [".png", ".jpg", ".jpeg", ".webp", ".gif", ".bmp"]),
   ("audio", [".mp3", ".wav", ".aac", ".m4a", ".ogg"]),
   ("video", [".mp4", ".mov", ".mkv", ".avi", ".webm"]),
   ("docs", [".txt", ".md", ".pdf", ".docx", ".xlsx", ".pptx"]),
   ("code", [".py", ".js", ".ts", ".html", ".css", ".json"])]

/-- `TEXT_EXTS` (src/Agente.py:50). -/
def TEXT_EXTS : List String :=
  [".txt", ".md", ".py", ".js", ".ts", ".html", ".css", ".json", ".csv", ".log"]

/-- `ALLOWED_APPS` (src/Agente.py:34): key, argument vector, description.  The
`explorer_workspace` entry's vector contains `str(WORKSPACE)`; the table is
closed and immutable. -/
def ALLOWED_APPS (ws : AgPath) : List (String × List String × String) :=
  [("notepad", (["notepad.exe"], "Bloc de notas")),
   ("calculator", (["calc.exe"], "Calculadora")),
   ("explorer_workspace", (["explorer.exe", pathStr ws], "Explorador en workspace")),
   ("cmd", (["cmd.exe"], "Símbolo del sistema")),
   ("chrome", (["cmd.exe", "/c", "start", "chrome"], "Google Chrome (si está instalado)"))]

/-- `RETRIES` (src/Agente.py:30). -/
def RETRIES : Nat := 2

/-- `Path.suffix` of a file name: the last dot-extension, empty for names
with no dot, a leading dot only, or a trailing dot (CPython semantics). -/
def pySuffix (name : String) : String :=
  let rev := name.data.reverse
  let after := rev.takeWhile (fun c => c ≠ '.')
  if after.length = rev.length then ""
  else if after.length = 0 then ""
  else if after.length < rev.length - 1 then "." ++ String.mk after.reverse
  else ""

/-- The extension-group lookup loop of `tool_organize_folder`: first matching
group, default `"otros"`. -/
def groupOf (ext : String) : String :=
  match EXT_GROUPS.find? (fun g => g.2.contains ext) with
  | some g => g.1
  | none => "otros"

/-- `str(p.relative_to(WORKSPACE))`: `none` models the `ValueError` raised
when `p` is not below the workspace. -/
def relTo (ws p : AgPath) : Option String :=
  if ws.isPrefixOf p && p ≠ ws then some (String.intercalate "/" (p.drop ws.length))
  else none

/-! ## ToolResult builders -/

/-- A failed `ToolResult`. -/
def errJ (msg : String) : Json :=
  .obj [("ok", .bool false), ("error", .str msg)]

/-- The `ok` field of a `ToolResult`. -/
def jOk (j : Json) : Option Bool :=
  match objGet j "ok" with
  | some (.bool b) => some b
  | _ => none

/-- The `error` field of a `ToolResult`. -/
def jError (j : Json) : Option String :=
  match objGet j "error" with
  | some (.str s) => some s
  | _ => none

/-- A string field of a `ToolResult`. -/
def jStrField (j : Json) (k : String) : Option String :=
  match objGet j k with
  | some (.str s) => some s
  | _ => none

/-- A numeric field of a `ToolResult`, as its numeral text. -/
def jNumField (j : Json) (k : String) : Option String :=
  match objGet j k with
  | some (.num raw) => some raw
  | _ => none

/-! ## The tools (src/Agente.py:106-298)

Each tool models one Python function.  The result type
`Except String (Json × FS)` distinguishes a returned `ToolResult` (`.ok`)
from an exception escaping the tool (`.error`), and carries the filesystem
state after the call. -/

/-- `tool_write_file` (src/Agente.py:106). -/
def tool_write_file (ws : AgPath) (st : FS) (cfg : Config) (con : Console)
    (path content : String) (overwrite : Bool) : Except String (Json × FS) := do
  let file_path ← safe_path ws path
  if pathExists st ws file_path && !overwrite then
    pure (errJ "El archivo ya existe. Usa overwrite=true si quieres sobrescribir.", st)
  else if !(require_approval cfg con.ans1) then
    pure (errJ "Acción cancelada por el usuario.", st)
  else do
    let st1 ← mkdirParents st ws file_path.dropLast
    if isDirAt st1 ws file_path then
      -- `write_text` on a directory raises; `tool_write_file` has no try block
      Except.error "IsADirectoryError: la ruta es un directorio"
    else
      let st2 := fsWrite st1 file_path content
      -- verificación real: existence and size re-read from the filesystem
      let ex := pathExists st2 ws file_path
      let size := match lookupF st2.files file_path with
        | some c => c.utf8ByteSize
        | none => 0
      pure (.obj [("ok", .bool true), ("path", .str (pathStr file_path)),
        ("exists", .bool ex), ("size", .num (toString size))], st2)

/-- `tool_read_file` (src/Agente.py:123). -/
def tool_read_file (ws : AgPath) (st : FS) (path : String) (max_chars : Int) :
    Except String Json := do
  let file_path ← safe_path ws path
  if !(pathExists st ws file_path) then
    pure (errJ "Archivo no existe.")
  else
    match lookupF st.files file_path with
    | none => Except.error "IsADirectoryError: la ruta es un directorio"
    | some data =>
      let data :=
        if (data.length : Int) > max_chars then pySliceTo data max_chars ++ "\n... (recortado)"
        else data
      pure (.obj [("ok", .bool true), ("path", .str (pathStr file_path)),
        ("content", .str data)])

/-- Lexicographic-by-codepoint order used to model Python's `list.sort()` on
strings. -/
def clLt : List Char → List Char → Bool
  | [], [] => false
  | [], _ :: _ => true
  | _ :: _, [] => false
  | a :: as, b :: bs =>
    if a.toNat < b.toNat then true
    else if b.toNat < a.toNat then false
    else clLt as bs

/-- Insert into a sorted list of strings. -/
def insSorted (x : String) : List String → List String
  | [] => [x]
  | y :: rest => if clLt x.data y.data then x :: y :: rest else y :: insSorted x rest

/-- `list.sort()` on strings. -/
def sortStrs (l : List String) : List String :=
  l.foldl (fun acc x => insSorted x acc) []

/-- `safe_path(subdir) if subdir else WORKSPACE`: the base-directory
resolution shared by `list_files`, `organize_folder` and `search_text`
(the empty string is falsy). -/
def resolveBase (ws : AgPath) (subdir : String) : Except String AgPath :=
  if subdir = "" then Except.ok ws else safe_path ws subdir

/-- `tool_list_files` (src/Agente.py:132). -/
def tool_list_files (ws : AgPath) (st : FS) (subdir : String) :
    Except String Json := do
  let base ← resolveBase ws subdir
  if !(pathExists st ws base) then
    pure (errJ "Directorio no existe.")
  else if isFile st base then
    -- `rglob` on a regular file raises
    Except.error "NotADirectoryError"
  else do
    let inTree := st.files.filter (fun e => base.isPrefixOf e.1 && e.1 ≠ base)
    let rels ← inTree.mapM (fun e =>
      match relTo ws e.1 with
      | some r => Except.ok r
      | none => Except.error "ValueError: la ruta no está bajo el workspace")
    let files := sortStrs rels
    pure (.obj [("ok", .bool true),
      ("files", .arr ((files.take 500).map Json.str)),
      ("count", .num (toString files.length))])

/-- `tool_open_app` (src/Agente.py:143).  The `subprocess.Popen` side effect
lies outside the filesystem model; a whitelisted, approved launch returns the
success `ToolResult`. -/
def tool_open_app (ws : AgPath) (cfg : Config) (con : Console)
    (app_key : String) : Json :=
  match (ALLOWED_APPS ws).find? (fun a => a.1 = app_key) with
  | none =>
    errJ ("App no permitida. Permitidas: "
      ++ pyRepr (.arr ((ALLOWED_APPS ws).map (fun a => Json.str a.1))))
  | some app =>
    if !(require_approval cfg con.ans1) then errJ "Acción cancelada por el usuario."
    else .obj [("ok", .bool true), ("opened", .str app_key), ("desc", .str app.2.2)]

/-- Accumulator of the `tool_organize_folder` loop. -/
structure OrgAcc where
  st : FS
  movedRev : List (String × String)
  skipped : Nat

/-- One iteration of the `tool_organize_folder` loop over a top-level file.
A file that vanished since the snapshot makes `shutil.move`/`copy2` raise,
which the per-file `try` counts as skipped. -/
def organizeStep (ws base : AgPath) (mode : String) (acc : OrgAcc)
    (entry : AgPath × String) : OrgAcc :=
  match lookupF acc.st.files entry.1 with
  | none => { acc with skipped := acc.skipped + 1 }
  | some content =>
    let name := lastName entry.1
    let ext := pyLower (pySuffix name)
    let dest_folder := groupOf ext
    let dest := base ++ [dest_folder, name]
    if dest = entry.1 then { acc with skipped := acc.skipped + 1 }
    else
      -- `shutil.move`/`copy2` into an existing directory target land inside it
      let realDest := if isDirAt acc.st ws dest then dest ++ [name] else dest
      let files' :=
        if mode = "move" then insertF (eraseF acc.st.files entry.1) realDest content
        else insertF acc.st.files realDest content
      { st := { acc.st with files := files' },
        movedRev := (name, dest_folder ++ "/" ++ name) :: acc.movedRev,
        skipped := acc.skipped }

/-- The category-folder creation loop of `tool_organize_folder`. -/
def mkdirCats (st : FS) (ws base : AgPath) : Except String FS :=
  ((EXT_GROUPS.map Prod.fst) ++ ["otros"]).foldlM
    (fun s folder => mkdirParents s ws (base ++ [folder])) st

/-- Render the `moved` payload. -/
def movedJ (moved : List (String × String)) : Json :=
  .arr ((moved.take 50).map (fun m =>
    Json.obj [("from", .str m.1), ("to", .str m.2)]))

/-- `tool_organize_folder` (src/Agente.py:157). -/
def tool_organize_folder (ws : AgPath) (st : FS) (cfg : Config) (con : Console)
    (subdir : String) (mode : String) : Except String (Json × FS) :=
  if mode ≠ "move" && mode ≠ "copy" then
    pure (errJ "mode debe ser \x27move\x27 o \x27copy\x27.", st)
  else do
    let base ← resolveBase ws subdir
    if !(pathExists st ws base) then
      pure (errJ "Directorio no existe.", st)
    else if !(require_approval cfg con.ans1) then
      pure (errJ "Acción cancelada por el usuario.", st)
    else do
      let st1 ← mkdirCats st ws base
      -- `base.iterdir()` snapshot restricted by `p.is_file()`
      let entries := st1.files.filter
        (fun e => e.1.length = base.length + 1 && base.isPrefixOf e.1)
      let acc := entries.foldl (organizeStep ws base mode) ⟨st1, [], 0⟩
      let moved := acc.movedRev.reverse
      pure (.obj [("ok", .bool true),
        ("moved_count", .num (toString moved.length)),
        ("skipped", .num (toString acc.skipped)),
        ("moved", movedJ moved)], acc.st)

/-- `tool_delete_file` (src/Agente.py:199). -/
def tool_delete_file (ws : AgPath) (st : FS) (cfg : Config) (con : Console)
    (path : String) : Except String (Json × FS) := do
  let file_path ← safe_path ws path
  if !(pathExists st ws file_path) || !(isFile st file_path) then
    pure (errJ "Archivo no existe.", st)
  else if !(double_confirm_delete cfg con file_path) then
    pure (errJ "Borrado cancelado por el usuario.", st)
  else
    pure (.obj [("ok", .bool true), ("deleted", .str (pathStr file_path))],
      fsErasePath st file_path)

/-- The body of the `try` block of `tool_rename_file` from `src_path.rename`
onward: raises if the source vanished (e.g. it was the destination just
unlinked) or the destination is a directory. -/
def renameStep (ws : AgPath) (st : FS) (sp dp : AgPath) : Json × FS :=
  match lookupF st.files sp with
  | none => (errJ "FileNotFoundError: el origen ya no existe", st)
  | some content =>
    if isDirAt st ws dp then (errJ "IsADirectoryError: el destino es un directorio", st)
    else (.obj [("ok", .bool true), ("from", .str (pathStr sp)),
      ("to", .str (pathStr dp))],
      { st with files := insertF (eraseF st.files sp) dp content })

/-- `tool_rename_file` (src/Agente.py:213). -/
def tool_rename_file (ws : AgPath) (st : FS) (cfg : Config) (con : Console)
    (src dst : String) (overwrite : Bool) : Except String (Json × FS) := do
  let src_path ← safe_path ws src
  let dst_path ← safe_path ws dst
  if !(pathExists st ws src_path) || !(isFile st src_path) then
    pure (errJ "Archivo origen no existe.", st)
  else if pathExists st ws dst_path && !overwrite then
    pure (errJ "Destino ya existe. Usa overwrite=true para reemplazar.", st)
  else if !(require_approval cfg con.ans1) then
    pure (errJ "Acción cancelada por el usuario.", st)
  else
    -- try block: mkdir, conditional unlink, rename; exceptions become ok=false
    match mkdirParents st ws dst_path.dropLast with
    | .error m => pure (errJ m, st)
    | .ok st1 =>
      if overwrite && pathExists st1 ws dst_path then
        if isFile st1 dst_path then
          pure (renameStep ws (fsErasePath st1 dst_path) src_path dst_path)
        else
          -- `unlink` on a directory raises
          pure (errJ "PermissionError: no se puede desenlazar un directorio", st1)
      else
        pure (renameStep ws st1 src_path dst_path)

/-- The inner line loop of `tool_search_text` on one file: append matching
lines (1-based numbers, text capped at 300 characters) until `max_hits` is
reached, at which point the whole tool returns early with `truncated=True`. -/
def searchLines (q : String) (csFlag : Bool) (rel : String) (max_hits : Int) :
    List String → Nat → List Json → List Json × Bool
  | [], _, hits => (hits, false)
  | line :: rest, idx, hits =>
    let line_cmp := if csFlag then line else pyLower line
    if pyContains line_cmp q then
      let hits' := hits ++ [Json.obj [("file", .str rel),
        ("line", .num (toString (idx + 1))),
        ("text", .str (pySliceTo line 300))]]
      if (hits'.length : Int) ≥ max_hits then (hits', true)
      else searchLines q csFlag rel max_hits rest (idx + 1) hits'
    else searchLines q csFlag rel max_hits rest (idx + 1) hits

/-- The file loop of `tool_search_text`: text-extension files whose content
contains the query are scanned line by line.  A file outside the workspace
would make `relative_to` raise. -/
def searchFiles (ws : AgPath) (q : String) (csFlag : Bool) (max_hits : Int) :
    List (AgPath × String) → List Json → Except String (List Json × Bool)
  | [], hits => pure (hits, false)
  | (p, text) :: rest, hits =>
    if !(TEXT_EXTS.contains (pyLower (pySuffix (lastName p)))) then
      searchFiles ws q csFlag max_hits rest hits
    else
      let hay := if csFlag then text else pyLower text
      if !(pyContains hay q) then searchFiles ws q csFlag max_hits rest hits
      else
        match relTo ws p with
        | none => Except.error "ValueError: la ruta no está bajo el workspace"
        | some rel =>
          match searchLines q csFlag rel max_hits (pySplitlines text) 0 hits with
          | (hits', true) => pure (hits', true)
          | (hits', false) => searchFiles ws q csFlag max_hits rest hits'

/-- `tool_search_text` (src/Agente.py:235). -/
def tool_search_text (ws : AgPath) (st : FS) (cfg : Config) (con : Console)
    (query subdir : String) (case_sensitive : Bool) (max_hits : Int) :
    Except String Json := do
  let base ← resolveBase ws subdir
  if !(pathExists st ws base) then
    pure (errJ "Directorio no existe.")
  else if !(require_approval cfg con.ans1) then
    pure (errJ "Acción cancelada por el usuario.")
  else do
    let q := if case_sensitive then query else pyLower query
    let inTree := st.files.filter (fun e => base.isPrefixOf e.1 && e.1 ≠ base)
    let (hits, truncated) ← searchFiles ws q case_sensitive max_hits inTree []
    pure (.obj [("ok", .bool true), ("query", .str query),
      ("hits", .arr hits), ("truncated", .bool truncated)])

/-- The characters `r'<>:"/\|?*'` stripped from project names. -/
def illegalNameChars : List Char :=
  ['<', '>', ':', '"', '/', '\\', '|', '?', '*']

/-- `tool_create_project_folder` (src/Agente.py:273). -/
def tool_create_project_folder (ws : AgPath) (st : FS) (cfg : Config)
    (con : Console) (project : String) (include_date : Bool)
    (project_name folder_name : String) : Except String (Json × FS) := do
  -- compatibilidad con modelos que se inventan args
  let project := if project = "" && project_name ≠ "" then project_name else project
  let project := if folder_name ≠ "" && project = "" then folder_name else project
  let project_clean :=
    pyStrip (String.mk ((pyStrip project).data.filter
      (fun c => !illegalNameChars.contains c)))
  if project_clean = "" then
    pure (errJ "Nombre de proyecto inválido.", st)
  else do
    let stamp := if include_date then cfg.today else ""
    let folder_name_final :=
      if stamp ≠ "" then stamp ++ "_" ++ project_clean else project_clean
    let folder_path ← safe_path ws ("proyectos/" ++ folder_name_final)
    if !(require_approval cfg con.ans1) then
      pure (errJ "Acción cancelada por el usuario.", st)
    else
      -- try block: mkdir the project folder and its fixed subtree
      match mkdirParents st ws folder_path with
      | .error m => pure (errJ m, st)
      | .ok st1 =>
        match ["entrada", "salida", "notas", "assets"].foldlM
            (fun s sub => mkdirParents s ws (folder_path ++ [sub])) st1 with
        | .error m => pure (errJ m, st1)
        | .ok st2 =>
          pure (.obj [("ok", .bool true), ("folder", .str (pathStr folder_path)),
            ("relative", .str ("proyectos/" ++ folder_name_final))], st2)

/-! ## Registry and dispatch (src/Agente.py:300-311, 439-454) -/

/-- The keys of the `TOOLS` registry, in registration order. -/
def toolNames : List String :=
  ["write_file", "read_file", "list_files", "open_app", "organize_folder",
   "delete_file", "rename_file", "search_text", "create_project_folder"]

/-- Outcome of `TOOLS[tool_name](**args)` as observed by `run_agent_turn`:
either a returned `ToolResult`, a `TypeError` from argument binding, or
another exception escaping the tool. -/
inductive DispatchOut where
  | result (j : Json) (st' : FS)
  | typeErr (m : String)
  | exc (m : String) (st' : FS)

/-- `**args` binding of one parameter list: every supplied key must be a
declared parameter (Python tools here have no `**kwargs`), and every
parameter without a default must be supplied. -/
def argsBindable (fields : List (String × Json)) (params : List String)
    (required : List String) : Bool :=
  fields.all (fun f => params.contains f.1)
    && required.all (fun r => fields.any (fun f => f.1 = r))

/-- Fetch a string argument: `none` when absent, `some (.error _)` models the
`AttributeError`/`TypeError` raised later when a non-string flows into string
methods. -/
def getStrArg (fields : List (String × Json)) (k : String) :
    Option (Except String String) :=
  match objGet (.obj fields) k with
  | some (.str s) => some (.ok s)
  | some _ => some (.error ("TypeError: se esperaba una cadena para " ++ k))
  | none => none

/-- Fetch an integer argument the same way. -/
def getIntArg (fields : List (String × Json)) (k : String) :
    Option (Except String Int) :=
  match objGet (.obj fields) k with
  | some (.num raw) =>
    match raw.toInt? with
    | some n => some (.ok n)
    | none => some (.error ("TypeError: se esperaba un entero para " ++ k))
  | some _ => some (.error ("TypeError: se esperaba un entero para " ++ k))
  | none => none

/-- Fetch an argument used only for its truthiness (the `overwrite`,
`include_date`, `case_sensitive` flags). -/
def getBoolArg (fields : List (String × Json)) (k : String) (dflt : Bool) : Bool :=
  match objGet (.obj fields) k with
  | some v => pyTruthy v
  | none => dflt

/-- Lift a tool outcome into a `DispatchOut`, recording the unchanged state
for tools that do not touch the filesystem. -/
def liftPure (st : FS) : Except String Json → DispatchOut
  | .ok j => .result j st
  | .error m => .exc m st

/-- Lift a state-passing tool outcome. -/
def liftSt (st : FS) : Except String (Json × FS) → DispatchOut
  | .ok (j, st') => .result j st'
  | .error m => .exc m st

/-- `TOOLS[tool_name](**args)`: bind the JSON arguments to the named tool and
run it.  `tool_name` is known to be registered. -/
def callTool (ws : AgPath) (st : FS) (cfg : Config) (con : Console)
    (name : String) (fields : List (String × Json)) : DispatchOut :=
  let bindErr := .typeErr ("argumentos inesperados o faltantes para " ++ name)
  if name = "write_file" then
    if !(argsBindable fields ["path", "content", "overwrite"] ["path", "content"]) then bindErr
    else
      match getStrArg fields "path", getStrArg fields "content" with
      | some (.ok path), some (.ok content) =>
        liftSt st (tool_write_file ws st cfg con path content (getBoolArg fields "overwrite" false))
      | some (.error m), _ => .exc m st
      | _, some (.error m) => .exc m st
      | _, _ => bindErr
  else if name = "read_file" then
    if !(argsBindable fields ["path", "max_chars"] ["path"]) then bindErr
    else
      match getStrArg fields "path", (getIntArg fields "max_chars").getD (.ok 6000) with
      | some (.ok path), .ok mc => liftPure st (tool_read_file ws st path mc)
      | some (.error m), _ => .exc m st
      | _, .error m => .exc m st
      | _, _ => bindErr
  else if name = "list_files" then
    if !(argsBindable fields ["subdir"] []) then bindErr
    else
      match (getStrArg fields "subdir").getD (.ok "") with
      | .ok subdir => liftPure st (tool_list_files ws st subdir)
      | .error m => .exc m st
  else if name = "open_app" then
    if !(argsBindable fields ["app_key"] ["app_key"]) then bindErr
    else
      match getStrArg fields "app_key" with
      | some (.ok app_key) => .result (tool_open_app ws cfg con app_key) st
      | some (.error m) => .exc m st
      | none => bindErr
  else if name = "organize_folder" then
    if !(argsBindable fields ["subdir", "mode"] []) then bindErr
    else
      match (getStrArg fields "subdir").getD (.ok ""),
          (getStrArg fields "mode").getD (.ok "move") with
      | .ok subdir, .ok mode => liftSt st (tool_organize_folder ws st cfg con subdir mode)
      | .error m, _ => .exc m st
      | _, .error m =>
        -- a non-string `mode` fails the `mode not in {...}` membership test
        let _ := m
        .result (errJ "mode debe ser \x27move\x27 o \x27copy\x27.") st
  else if name = "delete_file" then
    if !(argsBindable fields ["path"] ["path"]) then bindErr
    else
      match getStrArg fields "path" with
      | some (.ok path) => liftSt st (tool_delete_file ws st cfg con path)
      | some (.error m) => .exc m st
      | none => bindErr
  else if name = "rename_file" then
    if !(argsBindable fields ["src", "dst", "overwrite"] ["src", "dst"]) then bindErr
    else
      match getStrArg fields "src", getStrArg fields "dst" with
      | some (.ok src), some (.ok dst) =>
        liftSt st (tool_rename_file ws st cfg con src dst (getBoolArg fields "overwrite" false))
      | some (.error m), _ => .exc m st
      | _, some (.error m) => .exc m st
      | _, _ => bindErr
  else if name = "search_text" then
    if !(argsBindable fields ["query", "subdir", "case_sensitive", "max_hits"] ["query"]) then bindErr
    else
      match getStrArg fields "query", (getStrArg fields "subdir").getD (.ok ""),
          (getIntArg fields "max_hits").getD (.ok 50) with
      | some (.ok query), .ok subdir, .ok mh =>
        liftPure st (tool_search_text ws st cfg con query subdir
          (getBoolArg fields "case_sensitive" false) mh)
      | some (.error m), _, _ => .exc m st
      | _, .error m, _ => .exc m st
      | _, _, .error m => .exc m st
      | _, _, _ => bindErr
  else if name = "create_project_folder" then
    if !(argsBindable fields ["project", "include_date", "project_name", "folder_name"] []) then bindErr
    else
      match (getStrArg fields "project").getD (.ok ""),
          (getStrArg fields "project_name").getD (.ok ""),
          (getStrArg fields "folder_name").getD (.ok "") with
      | .ok project, .ok project_name, .ok folder_name =>
        liftSt st (tool_create_project_folder ws st cfg con project
          (getBoolArg fields "include_date" true) project_name folder_name)
      | .error m, _, _ => .exc m st
      | _, .error m, _ => .exc m st
      | _, _, .error m => .exc m st
  else
    .typeErr ("herramienta no registrada: " ++ name)

/-! ## Action protocol (src/Agente.py:396-473) -/

/-- `parse_action` (src/Agente.py:396): strip, require a leading `\x7b`, then
`json.loads`; any failure yields `None`. -/
def parse_action (text : String) : Option Json :=
  let text := pyStrip text
  if !(strIsPre "\x7b" text) then none
  else jsonLoads text

/-- `value == "lit"` for a possibly missing Python value: true exactly when
the value is that string. -/
def eqStrVal (o : Option Json) (s : String) : Bool :=
  match o with
  | some (.str t) => t = s
  | _ => false

/-- What one model-driven turn produced: the reply shown to the user, the
tools whose bodies actually ran, and the final filesystem. -/
structure TurnOut where
  reply : String
  invoked : List String
  fs : FS
deriving DecidableEq

/-- The portion of `run_agent_turn` (src/Agente.py:429-473) that handles the
model's raw output: parse it, dispatch a tool if requested, summarize via a
second model call (`raw2` is that call's output).  Mirrors the source
branch for branch. -/
def handle_model_output (ws : AgPath) (st : FS) (cfg : Config) (con : Console)
    (raw raw2 : String) : TurnOut :=
  match parse_action raw with
  | none => ⟨pyStrip raw, [], st⟩
  | some act =>
    if eqStrVal (objGet act "action") "reply" then
      ⟨pyStrip (pyStr ((objGet act "text").getD (.str ""))), [], st⟩
    else if eqStrVal (objGet act "action") "tool" then
      let tn := objGet act "tool_name"
      match tn with
      | some (.str tool_name) =>
        if !(toolNames.contains tool_name) then
          ⟨"No puedo: herramienta desconocida \x27" ++ tool_name ++ "\x27.", [], st⟩
        else
          -- args = act.get("args", {}) or {}
          let argsJ := match objGet act "args" with
            | some v => if pyTruthy v then v else .obj []
            | none => .obj []
          match argsJ with
          | .obj fields =>
            (match callTool ws st cfg con tool_name fields with
             | .typeErr m =>
               ⟨"Error de argumentos para " ++ tool_name ++ ": " ++ m, [], st⟩
             | .exc m st' =>
               ⟨"Error ejecutando " ++ tool_name ++ ": " ++ m, [tool_name], st'⟩
             | .result result st' =>
               -- followup summarization call, then second parse
               match parse_action raw2 with
               | some act2 =>
                 if eqStrVal (objGet act2 "action") "reply" then
                   ⟨pyStrip (pyStr ((objGet act2 "text").getD (.str ""))),
                     [tool_name], st'⟩
                 else ⟨"Resultado: " ++ pyRepr result, [tool_name], st'⟩
               | none => ⟨"Resultado: " ++ pyRepr result, [tool_name], st'⟩)
          | _ =>
            -- `**args` on a non-mapping raises TypeError, caught as such
            ⟨"Error de argumentos para " ++ tool_name
              ++ ": el argumento tras ** debe ser un mapeo", [], st⟩
      | some other =>
        ⟨"No puedo: herramienta desconocida \x27" ++ pyStr other ++ "\x27.", [], st⟩
      | none =>
        ⟨"No puedo: herramienta desconocida \x27None\x27.", [], st⟩
    else
      ⟨"No entendí la acción solicitada.", [], st⟩

/-! ## Direct-command router (src/Agente.py:314-349)

The three rules are regexes; they are modelled by explicit matchers with the
same backtracking semantics: `\s` is `isPySpace`, `.` matches anything except
`\n`, `(?i)` compares lowercased characters, greedy quantifiers prefer longer
matches, lazy ones shorter, and `\s*$` accepts exactly an all-whitespace
remainder. -/

/-- Case-insensitive literal match, returning the remainder. -/
def litCi : List Char → List Char → Option (List Char)
  | [], cs => some cs
  | _, [] => none
  | l :: lt, c :: ct => if c.toLower = l.toLower then litCi lt ct else none

/-- `\s+` with maximal munch (safe wherever a non-whitespace literal
follows). -/
def ws1 : List Char → Option (List Char)
  | [] => none
  | c :: rest => if isPySpace c then some (rest.dropWhile isPySpace) else none

/-- All-whitespace test (`\s*$`). -/
def allWsCl (cs : List Char) : Bool := cs.all isPySpace

/-- The literal separator `\s+con\s+el\s+contenido:` of the creation rule. -/
def matchSep (cs : List Char) : Option (List Char) := do
  let cs ← ws1 cs
  let cs ← litCi "con".data cs
  let cs ← ws1 cs
  let cs ← litCi "el".data cs
  let cs ← ws1 cs
  litCi "contenido:".data cs

/-- `(.+)` greedy against a trailing `\s*$`: longest non-`\n` prefix whose
complement is all whitespace (the countdown argument is the candidate
length). -/
def tailTryB (r : List Char) : Nat → Option (List Char)
  | 0 => none
  | b + 1 => if allWsCl (r.drop (b + 1)) then some (r.take (b + 1)) else tailTryB r b

/-- `\s*(.+)\s*$` with full backtracking: the whitespace prefix is shortened
only when no content split works (the countdown argument is the candidate
prefix length). -/
def tailTryA (cs : List Char) : Nat → Option (List Char)
  | 0 => tailTryB cs (cs.takeWhile (fun c => c ≠ '\n')).length
  | a + 1 =>
    let r := cs.drop (a + 1)
    match tailTryB r (r.takeWhile (fun c => c ≠ '\n')).length with
    | some b => some b
    | none => tailTryA cs a

/-- The content group `\s*(.+)\s*$` of the creation rule. -/
def matchTailContent (cs : List Char) : Option String :=
  (tailTryA cs (cs.takeWhile isPySpace).length).map String.mk

/-- The lazy path group: try `(.+?)` of length `k = 1, 2, …`, continuing past
separator positions where the rest of the pattern fails. -/
def scanG1Go (r : List Char) : Nat → Nat → Option (String × String)
  | _, 0 => none
  | k, rem + 1 =>
    if k > (r.takeWhile (fun c => c ≠ '\n')).length then none
    else
      match matchSep (r.drop k) with
      | some rest =>
        match matchTailContent rest with
        | some g2 => some (String.mk (r.take k), g2)
        | none => scanG1Go r (k + 1) rem
      | none => scanG1Go r (k + 1) rem

/-- `(.+?)\s+con\s+el\s+contenido:\s*(.+)\s*$` at the start of `r`. -/
def scanG1 (r : List Char) : Option (String × String) :=
  scanG1Go r 1 (r.length + 1)

/-- The `\s+` before the lazy path group, with backtracking (shorter
whitespace hands leading whitespace characters to the group). -/
def matchAfterArchivoGo (cs : List Char) : Nat → Option (String × String)
  | 0 => none
  | w + 1 =>
    match scanG1 (cs.drop (w + 1)) with
    | some res => some res
    | none => matchAfterArchivoGo cs w

/-- The creation rule
`(?i)^\s*crea\s+el\s+archivo\s+(.+?)\s+con\s+el\s+contenido:\s*(.+)\s*$`
(src/Agente.py:318), returning the two capture groups. -/
def matchCreateFile (s : String) : Option (String × String) := do
  let cs := s.data.dropWhile isPySpace
  let cs ← litCi "crea".data cs
  let cs ← ws1 cs
  let cs ← litCi "el".data cs
  let cs ← ws1 cs
  let cs ← litCi "archivo".data cs
  matchAfterArchivoGo cs (cs.takeWhile isPySpace).length

/-- The listing rule `(?i)^\s*lista\s+los\s+archivos\s*$` (src/Agente.py:330). -/
def matchListFiles (s : String) : Bool :=
  (do
    let cs := s.data.dropWhile isPySpace
    let cs ← litCi "lista".data cs
    let cs ← ws1 cs
    let cs ← litCi "los".data cs
    let cs ← ws1 cs
    let cs ← litCi "archivos".data cs
    if allWsCl cs then some () else none).isSome

/-- `(.+?)\s*$` lazily: the shortest nonempty non-`\n` prefix whose
complement is all whitespace. -/
def readTailK (r : List Char) : Nat → Nat → Option String
  | _, 0 => none
  | k, rem + 1 =>
    if k > (r.takeWhile (fun c => c ≠ '\n')).length then none
    else if allWsCl (r.drop k) then some (String.mk (r.take k))
    else readTailK r (k + 1) rem

/-- `\s+(.+?)\s*$`, whitespace greedy with backtracking. -/
def matchReadTailGo (cs : List Char) : Nat → Option String
  | 0 => none
  | w + 1 =>
    let r := cs.drop (w + 1)
    match readTailK r 1 (r.length + 1) with
    | some g => some g
    | none => matchReadTailGo cs w

/-- The reading rule `(?i)^\s*(lee|leer)\s+(.+?)\s*$` (src/Agente.py:340):
the alternation tries `lee` first, then `leer`. -/
def matchRead (s : String) : Option String :=
  let cs := s.data.dropWhile isPySpace
  match litCi "lee".data cs with
  | none => none
  | some cs1 =>
    match matchReadTailGo cs1 (cs1.takeWhile isPySpace).length with
    | some g => some g
    | none =>
      match litCi "leer".data cs with
      | none => none
      | some cs2 => matchReadTailGo cs2 (cs2.takeWhile isPySpace).length

/-- Truthiness of `dict.get(k)` (missing keys are `None`, hence falsy). -/
def pyTruthyOpt (o : Option Json) : Bool :=
  match o with
  | some v => pyTruthy v
  | none => false

/-- `res[k]` on results known to carry the key (and `res.get(k)` rendered
through an f-string). -/
def jIndex (j : Json) (k : String) : Json :=
  (objGet j k).getD .null

/-- `try_direct_command` (src/Agente.py:314): first matching rule wins; the
creation rule always calls `tool_write_file` with `overwrite=True`.  A `none`
result is the fall-through to inference; a raised exception (e.g. from
`safe_path`) propagates to the caller. -/
def try_direct_command (ws : AgPath) (st : FS) (cfg : Config) (con : Console)
    (user_input : String) : Except String (Option (String × FS)) :=
  let s := pyStrip user_input
  match matchCreateFile s with
  | some (g1, g2) =>
    let path := pyStripChars (pyStripChars (pyStrip g1) ['"']) ['\x27']
    let content := g2
    match tool_write_file ws st cfg con path content true with
    | .error e => .error e
    | .ok (res, st') =>
      if pyTruthyOpt (objGet res "ok") then
        .ok (some ("✅ Archivo creado en: " ++ pyStr (jIndex res "path")
          ++ " | existe=" ++ pyStr (jIndex res "exists")
          ++ " | size=" ++ pyStr (jIndex res "size") ++ " bytes", st'))
      else
        .ok (some ("❌ No se pudo crear: " ++ pyStr (jIndex res "error"), st'))
  | none =>
    if matchListFiles s then
      match tool_list_files ws st "" with
      | .error e => .error e
      | .ok res =>
        if pyTruthyOpt (objGet res "ok") then
          if jNumField res "count" = some "0" then
            .ok (some ("No hay archivos en el workspace.", st))
          else
            let names := match objGet res "files" with
              | some (.arr l) => l.map pyStr
              | _ => []
            .ok (some ("Archivos:\n" ++ String.intercalate "\n" names, st))
        else .ok (some ("Error: " ++ pyStr (jIndex res "error"), st))
    else
      match matchRead s with
      | some g2 =>
        let path := pyStripChars (pyStripChars (pyStrip g2) ['"']) ['\x27']
        match tool_read_file ws st path 6000 with
        | .error e => .error e
        | .ok res =>
          if pyTruthyOpt (objGet res "ok") then
            .ok (some ("Contenido de " ++ path ++ ":\n"
              ++ pyStr (jIndex res "content"), st))
          else
            .ok (some ("❌ No se pudo leer: " ++ pyStr (jIndex res "error"), st))
      | none => .ok none

/-! ## `call_ollama` (src/Agente.py:353-373)

One attempt is the `try` block: `requests.post` plus the status check, where
a non-200 status raises `RuntimeError(f"HTTP {status}: …")`.  The outcome of
attempt `i` is abstracted as `responses i`; `.error` carries `str(e)` of the
raised exception.  The `except` branch remembers the error and sleeps the
fixed 1-second backoff, so the trace records one sleep per failed attempt. -/

/-- The observable trace of a `call_ollama` run. -/
structure CallTrace where
  attempts : Nat
  sleeps : Nat
  result : Except String String
deriving DecidableEq

/-- The retry loop of `call_ollama`: `for attempt in range(RETRIES + 1)`. -/
def call_ollama_go (responses : Nat → Except String String) :
    Nat → Nat → Option String → CallTrace
  | i, 0, last_err =>
    ⟨i, i, .error ("No se pudo contactar con Ollama: "
      ++ (match last_err with | some e => e | none => "None"))⟩
  | i, rem + 1, last_err =>
    let _ := last_err
    match responses i with
    | .ok out => ⟨i + 1, i, .ok out⟩
    | .error e => call_ollama_go responses (i + 1) rem (some e)

/-- `call_ollama` with a configurable retry count (the source constant is
`RETRIES`). -/
def call_ollama (retries : Nat) (responses : Nat → Except String String) :
    CallTrace :=
  call_ollama_go responses 0 (retries + 1) none

/-! ## Shared demonstration values -/

/-- A workspace with one text file `a.txt` holding `"hola"`. -/
def st0 : FS := ⟨[(["home", "AGENT_WORKSPACE", "a.txt"], "hola")], []⟩

/-- Approval required, fixed date. -/
def cfgA : Config := ⟨true, "2026-10-12"⟩

/-- Operator who approves the first gate. -/
def conS : Console := ⟨"s", ""⟩

/-- A workspace with `a.txt` (`"hola"`) and `b.txt` (`"bb"`). -/
def st0b : FS :=
  ⟨[(["home", "AGENT_WORKSPACE", "a.txt"], "hola"),
    (["home", "AGENT_WORKSPACE", "b.txt"], "bb")], []⟩

/-- The top-level-file predicate selected by `base.iterdir()` + `is_file()`. -/
def isTop (base p : AgPath) : Prop :=
  p.length = base.length + 1 ∧ base.isPrefixOf p = true

instance (base p : AgPath) : Decidable (isTop base p) := by
  unfold isTop; infer_instance

/-- The category destination a top-level file is routed to. -/
def orgDest (base p : AgPath) : AgPath :=
  base ++ [groupOf (pyLower (pySuffix (lastName p))), lastName p]

/-! ## Helper lemmas about the filesystem model -/

theorem lookupF_cons (e : AgPath × String) (rest : List (AgPath × String))
    (q : AgPath) :
    lookupF (e :: rest) q = if e.1 = q then some e.2 else lookupF rest q := by
  cases e; rfl

theorem eraseF_cons (e : AgPath × String) (rest : List (AgPath × String))
    (p : AgPath) :
    eraseF (e :: rest) p = if e.1 = p then eraseF rest p else e :: eraseF rest p := by
  by_cases he : e.1 = p <;> simp [eraseF, List.filter_cons, he]

theorem lookupF_eraseF_self (l : List (AgPath × String)) (p : AgPath) :
    lookupF (eraseF l p) p = none := by
  induction l with
  | nil => rfl
  | cons e rest ih =>
    rw [eraseF_cons]
    by_cases he : e.1 = p
    · rw [if_pos he]; exact ih
    · rw [if_neg he, lookupF_cons, if_neg he]; exact ih

theorem lookupF_eraseF_ne (l : List (AgPath × String)) {p q : AgPath}
    (h : q ≠ p) : lookupF (eraseF l p) q = lookupF l q := by
  induction l with
  | nil => rfl
  | cons e rest ih =>
    rw [eraseF_cons]
    by_cases he : e.1 = p
    · rw [if_pos he, ih, lookupF_cons, if_neg (fun hq => h (by rw [← hq, he]))]
    · rw [if_neg he, lookupF_cons, lookupF_cons]
      by_cases hq : e.1 = q
      · rw [if_pos hq, if_pos hq]
      · rw [if_neg hq, if_neg hq, ih]

theorem lookupF_insertF_self (l : List (AgPath × String)) (p : AgPath) (c : String) :
    lookupF (insertF l p c) p = some c := by
  simp [insertF, lookupF]

theorem lookupF_insertF_ne (l : List (AgPath × String)) {p q : AgPath} (c : String)
    (h : q ≠ p) : lookupF (insertF l p c) q = lookupF l q := by
  rw [insertF, lookupF_cons, if_neg (fun hq => h hq.symm), lookupF_eraseF_ne l h]

theorem lookupF_isSome_of_mem {l : List (AgPath × String)} {e : AgPath × String}
    (h : e ∈ l) : (lookupF l e.1).isSome := by
  induction l with
  | nil => cases h
  | cons x rest ih =>
    rcases List.mem_cons.mp h with h | h
    · subst h; simp [lookupF]
    · by_cases hx : x.1 = e.1
      · simp [lookupF, hx]
      · simpa [lookupF, hx] using ih h

theorem mem_eraseF {l : List (AgPath × String)} {e : AgPath × String} {p : AgPath} :
    e ∈ eraseF l p ↔ e ∈ l ∧ e.1 ≠ p := by
  simp [eraseF, List.mem_filter]

theorem mem_insertF {l : List (AgPath × String)} {e : AgPath × String} {p : AgPath}
    {c : String} : e ∈ insertF l p c ↔ e = (p, c) ∨ (e ∈ l ∧ e.1 ≠ p) := by
  simp [insertF, mem_eraseF]

/-- A nonempty path is never a prefix of its own parent. -/
theorem not_isPrefixOf_dropLast {p : AgPath} (h : p ≠ []) :
    p.isPrefixOf p.dropLast = false := by
  by_contra hc
  have hpre : p <+: p.dropLast :=
    List.isPrefixOf_iff_prefix.mp (Bool.not_eq_false _ |>.mp hc)
  have hlen := List.IsPrefix.length_le hpre
  have hdl : p.dropLast.length = p.length - 1 := List.length_dropLast p
  have hpos : 0 < p.length := List.length_pos.mpr h
  omega

/-! ## Claim C1 -/

/-- C1: refuted as stated — the code has a prefix-check bug.  With workspace
root `/home/AGENT_WORKSPACE`, the relative path
`../AGENT_WORKSPACE_evil/secret.txt` resolves to
`/home/AGENT_WORKSPACE_evil/secret.txt`, which passes `safe_path`'s
*string*-prefix check (`str(p).startswith(str(WORKSPACE))`) yet is not equal
to or nested under the workspace root, and no `ValueError` is raised.  The
error message `"fuera del workspace"` and the spec show the intended check is
path nesting, so this is a bug in the code, not in the claim. -/
theorem safe_path_escapes_workspace :
    safe_path wsDemo "../AGENT_WORKSPACE_evil/secret.txt" =
        Except.ok ["home", "AGENT_WORKSPACE_evil", "secret.txt"]
      ∧ nestedUnder wsDemo ["home", "AGENT_WORKSPACE_evil", "secret.txt"] = false :=
  ⟨rfl, by decide⟩

/-! ## Claim C7 -/

/-- One failed attempt advances the retry loop. -/
theorem call_ollama_go_step (responses : Nat → Except String String)
    (i rem : Nat) (le : Option String) (e : String)
    (h : responses i = .error e) :
    call_ollama_go responses i (rem + 1) le =
      call_ollama_go responses (i + 1) rem (some e) := by
  rw [call_ollama_go, h]

/-- When every attempt in a window of `rem + 1` attempts fails, the retry loop
runs them all, sleeps after each failure, and reports the last error. -/
theorem call_ollama_go_all_fail (responses : Nat → Except String String)
    (errs : Nat → String) :
    ∀ rem i le, (∀ k, k < rem + 1 → responses (i + k) = .error (errs (i + k))) →
      call_ollama_go responses i (rem + 1) le =
        ⟨i + rem + 1, i + rem + 1,
          .error ("No se pudo contactar con Ollama: " ++ errs (i + rem))⟩ := by
  intro rem
  induction rem with
  | zero =>
    intro i le h
    have h0 := h 0 (by omega)
    simp only [Nat.add_zero] at h0
    rw [call_ollama_go_step responses i 0 le _ h0]
    simp [call_ollama_go]
  | succ n ih =>
    intro i le h
    have h0 := h 0 (by omega)
    simp only [Nat.add_zero] at h0
    have hrec := ih (i + 1) (some (errs i)) (fun k hk => by
      have hh := h (k + 1) (by omega)
      have he : i + (k + 1) = i + 1 + k := by omega
      rw [he] at hh
      exact hh)
    have ha : i + 1 + n = i + (n + 1) := by omega
    rw [ha] at hrec
    rw [call_ollama_go_step responses i (n + 1) le _ h0, hrec]

/-- C7: when every request fails (non-200 status or network error, i.e. every
attempt's `try` block raises), `call_ollama` makes exactly `RETRIES + 1`
attempts, sleeps the fixed backoff after each failed attempt (hence between
consecutive attempts), and then raises
`RuntimeError("No se pudo contactar con Ollama: …")` carrying the last
underlying error. -/
theorem call_ollama_exhausts_retries (responses : Nat → Except String String)
    (errs : Nat → String)
    (h : ∀ i, i ≤ RETRIES → responses i = .error (errs i)) :
    call_ollama RETRIES responses =
      ⟨RETRIES + 1, RETRIES + 1,
        .error ("No se pudo contactar con Ollama: " ++ errs RETRIES)⟩ := by
  have hg := call_ollama_go_all_fail responses errs RETRIES 0 none
    (fun k hk => by simpa using h k (by omega))
  simpa [call_ollama] using hg

/-- Witness for C7: three failing HTTP-500 attempts. -/
theorem call_ollama_exhausts_retries_witness :
    call_ollama RETRIES (fun _ => Except.error "HTTP 500: error interno") =
      ⟨RETRIES + 1, RETRIES + 1,
        Except.error ("No se pudo contactar con Ollama: " ++ "HTTP 500: error interno")⟩ :=
  call_ollama_exhausts_retries (fun _ => Except.error "HTTP 500: error interno")
    (fun _ => "HTTP 500: error interno") (fun _ _ => rfl)

/-! ## Claim C8 -/

/-- C8 counterexample: the model output
`' {"action":"tool","tool_name":"list_files","args":{}}'` (note the leading
space) does not begin with `\x7b`, yet the turn does not return it verbatim —
`parse_action` strips before testing, the JSON parses, and the `list_files`
tool is invoked. -/
theorem turn_nonbrace_output_invokes_tool :
    strIsPre "\x7b"
        " \x7b\"action\":\"tool\",\"tool_name\":\"list_files\",\"args\":\x7b\x7d\x7d" = false
    ∧ (handle_model_output wsDemo st0 cfgA conS
        " \x7b\"action\":\"tool\",\"tool_name\":\"list_files\",\"args\":\x7b\x7d\x7d"
        "ok").invoked = ["list_files"] :=
  ⟨rfl, rfl⟩

/-- C8 (amended): for every model output whose *stripped* text does not begin
with `\x7b` or does not parse as JSON, the turn returns the stripped text as
the reply, invokes no tool, and leaves the filesystem unchanged. -/
theorem nonjson_model_output_is_plain_reply (ws : AgPath) (st : FS) (cfg : Config)
    (con : Console) (raw raw2 : String)
    (h : strIsPre "\x7b" (pyStrip raw) = false ∨ jsonLoads (pyStrip raw) = none) :
    handle_model_output ws st cfg con raw raw2 = ⟨pyStrip raw, [], st⟩ := by
  have hpa : parse_action raw = none := by
    unfold parse_action
    rcases h with h | h
    · simp [h]
    · by_cases hs : strIsPre "\x7b" (pyStrip raw)
      · simp [hs, h]
      · simp [hs]
  unfold handle_model_output
  rw [hpa]

/-- Witness for C8's amended theorem: `"no es json"`. -/
theorem nonjson_model_output_is_plain_reply_witness :
    strIsPre "\x7b" (pyStrip "no es json") = false
    ∧ handle_model_output wsDemo st0 cfgA conS "no es json" "x" = ⟨"no es json", [], st0⟩ :=
  ⟨rfl, nonjson_model_output_is_plain_reply wsDemo st0 cfgA conS "no es json" "x" (Or.inl rfl)⟩

/-! ## Claims C3 and C10: the deletion gates -/

theorem ok_bind {α β : Type} (a : α) (f : α → Except String β) :
    (Except.ok a : Except String α) >>= f = f a := rfl

theorem err_bind {α β : Type} (e : String) (f : α → Except String β) :
    (Except.error e : Except String α) >>= f = Except.error e := rfl

theorem pure_eq_ok {α : Type} (a : α) : (pure a : Except String α) = Except.ok a := rfl

/-- `double_confirm_delete` accepts exactly when the first gate accepts and
the stripped retyped input equals the file name. -/
theorem double_confirm_char (cfg : Config) (con : Console) (fp : AgPath) :
    double_confirm_delete cfg con fp = true ↔
      require_approval cfg con.ans1 = true ∧ pyStrip con.ans2 = lastName fp := by
  unfold double_confirm_delete
  by_cases h : require_approval cfg con.ans1 <;> simp [h]

/-- Full behaviour of `tool_delete_file` on an existing regular file: the
double confirmation alone decides between deletion and an untouched state. -/
theorem delete_file_run (ws : AgPath) (st : FS) (cfg : Config) (con : Console)
    (path : String) (fp : AgPath)
    (hsp : safe_path ws path = Except.ok fp)
    (hf : isFile st fp = true) :
    tool_delete_file ws st cfg con path =
      (if double_confirm_delete cfg con fp then
        Except.ok (Json.obj [("ok", .bool true), ("deleted", .str (pathStr fp))],
          fsErasePath st fp)
      else Except.ok (errJ "Borrado cancelado por el usuario.", st)) := by
  have hex : pathExists st ws fp = true := by
    unfold pathExists; rw [hf]; rfl
  simp only [tool_delete_file, hsp, ok_bind, hex, hf, Bool.not_true, Bool.or_self,
    Bool.false_or, if_false, pure_eq_ok]
  by_cases hdc : double_confirm_delete cfg con fp <;> simp [hdc]

/-- C3: for an existing regular file, `tool_delete_file` deletes it exactly
when the first approval gate returns true and the operator's second-gate
input, stripped of surrounding whitespace, equals the file's name
case-sensitively; a first-gate acceptance with a second-gate mismatch returns
`ok=false` and leaves the filesystem (hence the file) unchanged. -/
theorem delete_file_requires_both_gates (ws : AgPath) (st : FS) (cfg : Config)
    (con : Console) (path : String) (fp : AgPath)
    (hsp : safe_path ws path = Except.ok fp)
    (hf : isFile st fp = true) :
    (tool_delete_file ws st cfg con path =
        Except.ok (Json.obj [("ok", .bool true), ("deleted", .str (pathStr fp))],
          fsErasePath st fp)
      ↔ (require_approval cfg con.ans1 = true ∧ pyStrip con.ans2 = lastName fp))
    ∧ (require_approval cfg con.ans1 = true → pyStrip con.ans2 ≠ lastName fp →
        tool_delete_file ws st cfg con path =
          Except.ok (errJ "Borrado cancelado por el usuario.", st)) := by
  rw [delete_file_run ws st cfg con path fp hsp hf]
  constructor
  · by_cases hdc : double_confirm_delete cfg con fp
    · rw [if_pos hdc]
      exact ⟨fun _ => (double_confirm_char cfg con fp).mp hdc, fun _ => rfl⟩
    · rw [if_neg hdc]
      constructor
      · intro hEq; exfalso; simp [errJ] at hEq
      · intro hcond; exact absurd ((double_confirm_char cfg con fp).mpr hcond) hdc
  · intro hreq hne
    have hdc : ¬ double_confirm_delete cfg con fp = true := fun hcon =>
      hne ((double_confirm_char cfg con fp).mp hcon).2
    rw [if_neg hdc]

/-- Witness for C3: deleting `a.txt` with first gate `"s"` and retyped name
`" a.txt "` (stripped to `a.txt`) removes the file. -/
theorem delete_file_requires_both_gates_witness :
    safe_path wsDemo "a.txt" = Except.ok ["home", "AGENT_WORKSPACE", "a.txt"]
    ∧ isFile st0 ["home", "AGENT_WORKSPACE", "a.txt"] = true
    ∧ tool_delete_file wsDemo st0 cfgA ⟨"s", " a.txt "⟩ "a.txt" =
        Except.ok (Json.obj [("ok", .bool true),
          ("deleted", .str "/home/AGENT_WORKSPACE/a.txt")], ⟨[], []⟩) := by
  refine ⟨rfl, rfl, ?_⟩
  exact (delete_file_requires_both_gates wsDemo st0 cfgA ⟨"s", " a.txt "⟩ "a.txt"
    ["home", "AGENT_WORKSPACE", "a.txt"] rfl rfl).1.mpr ⟨rfl, rfl⟩

/-- C10: with `APPROVAL_REQUIRED = False` the first gate auto-accepts every
input, yet `tool_delete_file` still requires the exact retyped file name: the
file is deleted iff the stripped second input equals the name, and a mismatch
returns `ok=false` with the state unchanged — the first gate alone never
suffices. -/
theorem delete_second_gate_survives_headless (ws : AgPath) (st : FS)
    (cfg : Config) (con : Console) (path : String) (fp : AgPath)
    (hoff : cfg.approvalRequired = false)
    (hsp : safe_path ws path = Except.ok fp)
    (hf : isFile st fp = true) :
    (∀ a : String, require_approval cfg a = true)
    ∧ (tool_delete_file ws st cfg con path =
        Except.ok (Json.obj [("ok", .bool true), ("deleted", .str (pathStr fp))],
          fsErasePath st fp)
      ↔ pyStrip con.ans2 = lastName fp)
    ∧ (pyStrip con.ans2 ≠ lastName fp →
        tool_delete_file ws st cfg con path =
          Except.ok (errJ "Borrado cancelado por el usuario.", st)) := by
  have hreq : ∀ a : String, require_approval cfg a = true := by
    intro a; unfold require_approval; rw [hoff]; rfl
  refine ⟨hreq, ?_, ?_⟩
  · rw [delete_file_run ws st cfg con path fp hsp hf]
    by_cases hdc : double_confirm_delete cfg con fp
    · rw [if_pos hdc]
      exact ⟨fun _ => ((double_confirm_char cfg con fp).mp hdc).2, fun _ => rfl⟩
    · rw [if_neg hdc]
      constructor
      · intro hEq; exfalso; simp [errJ] at hEq
      · intro hcond
        exact absurd ((double_confirm_char cfg con fp).mpr ⟨hreq con.ans1, hcond⟩) hdc
  · intro hne
    rw [delete_file_run ws st cfg con path fp hsp hf]
    have hdc : ¬ double_confirm_delete cfg con fp = true := fun hcon =>
      hne ((double_confirm_char cfg con fp).mp hcon).2
    rw [if_neg hdc]

/-- Witness for C10: approval disabled, first gate auto-passes with input
`"n"`, yet a mismatched retype leaves the file and a correct retype deletes
it. -/
theorem delete_second_gate_survives_headless_witness :
    require_approval ⟨false, "2026-10-12"⟩ "n" = true
    ∧ tool_delete_file wsDemo st0 ⟨false, "2026-10-12"⟩ ⟨"n", "otro.txt"⟩ "a.txt" =
        Except.ok (errJ "Borrado cancelado por el usuario.", st0)
    ∧ tool_delete_file wsDemo st0 ⟨false, "2026-10-12"⟩ ⟨"n", "a.txt"⟩ "a.txt" =
        Except.ok (Json.obj [("ok", .bool true),
          ("deleted", .str "/home/AGENT_WORKSPACE/a.txt")], ⟨[], []⟩) := by
  have h1 := delete_second_gate_survives_headless wsDemo st0 ⟨false, "2026-10-12"⟩
    ⟨"n", "otro.txt"⟩ "a.txt" ["home", "AGENT_WORKSPACE", "a.txt"] rfl rfl rfl
  have h2 := delete_second_gate_survives_headless wsDemo st0 ⟨false, "2026-10-12"⟩
    ⟨"n", "a.txt"⟩ "a.txt" ["home", "AGENT_WORKSPACE", "a.txt"] rfl rfl rfl
  refine ⟨h1.1 "n", h1.2.2 (by decide), h2.2.1.mpr rfl⟩

/-! ## Claim C5: write/read round-trip -/

theorem mkdirParents_files (st : FS) (ws p : AgPath) (st1 : FS)
    (h : mkdirParents st ws p = .ok st1) : st1.files = st.files := by
  unfold mkdirParents at h
  split at h
  · cases h
  · split at h <;> (cases h; rfl)

/-- Dissection of a successful `tool_write_file`: the path passed `safe_path`
and the final state is the write over a state with the same files. -/
theorem write_file_success_run (ws : AgPath) (st : FS) (cfg : Config)
    (con : Console) (path content : String) (overwrite : Bool) (j : Json)
    (st' : FS)
    (hw : tool_write_file ws st cfg con path content overwrite = .ok (j, st'))
    (hok : jOk j = some true) :
    ∃ fp st1, safe_path ws path = .ok fp ∧ st1.files = st.files
      ∧ st' = fsWrite st1 fp content := by
  cases hsp : safe_path ws path with
  | error e =>
    simp only [tool_write_file, hsp, err_bind] at hw
    cases hw
  | ok fp =>
    simp only [tool_write_file, hsp, ok_bind, pure_eq_ok] at hw
    by_cases hb1 : (pathExists st ws fp && !overwrite) = true
    · rw [if_pos hb1] at hw
      cases hw
      simp [jOk, errJ, objGet, objGet.lookupJ] at hok
    · rw [if_neg hb1] at hw
      by_cases hb2 : (!require_approval cfg con.ans1) = true
      · rw [if_pos hb2] at hw
        cases hw
        simp [jOk, errJ, objGet, objGet.lookupJ] at hok
      · rw [if_neg hb2] at hw
        cases hmk : mkdirParents st ws fp.dropLast with
        | error m =>
          rw [hmk, err_bind] at hw
          cases hw
        | ok st1 =>
          rw [hmk, ok_bind] at hw
          by_cases hdir : isDirAt st1 ws fp = true
          · rw [if_pos hdir] at hw
            cases hw
          · rw [if_neg hdir] at hw
            cases hw
            exact ⟨fp, st1, rfl, mkdirParents_files st ws fp.dropLast st1 hmk, rfl⟩

/-- C5: after a successful `tool_write_file(p, content)`, `tool_read_file(p,
max_chars)` returns exactly the written content when its length is at most
`max_chars`, and otherwise its first `max_chars` characters followed by the
truncation marker `"\n... (recortado)"`. -/
theorem write_then_read_roundtrip (ws : AgPath) (st : FS) (cfg : Config)
    (con : Console) (path content : String) (overwrite : Bool) (j : Json)
    (st' : FS) (mc : Nat)
    (hw : tool_write_file ws st cfg con path content overwrite = .ok (j, st'))
    (hok : jOk j = some true) :
    ∃ fp, safe_path ws path = Except.ok fp
      ∧ tool_read_file ws st' path (mc : Int) =
        Except.ok (Json.obj [("ok", .bool true), ("path", .str (pathStr fp)),
          ("content", .str (if content.length ≤ mc then content
            else String.mk (content.data.take mc) ++ "\n... (recortado)"))]) := by
  obtain ⟨fp, st1, hsp, hfiles, hst'⟩ :=
    write_file_success_run ws st cfg con path content overwrite j st' hw hok
  refine ⟨fp, hsp, ?_⟩
  have hlook : lookupF st'.files fp = some content := by
    rw [hst']; exact lookupF_insertF_self st1.files fp content
  have hex : pathExists st' ws fp = true := by
    unfold pathExists isFile
    rw [hlook]
    rfl
  simp only [tool_read_file, hsp, ok_bind, hex, Bool.not_true, if_false, hlook,
    pure_eq_ok]
  have hslice : pySliceTo content (mc : Int) = String.mk (content.data.take mc) := by
    unfold pySliceTo
    rw [if_neg (by exact not_lt.mpr (Int.natCast_nonneg mc))]
    norm_num
  by_cases hlen : content.length ≤ mc
  · have hgt : ¬ ((content.length : Int) > (mc : Int)) := by
      exact_mod_cast not_lt.mpr hlen
    rw [if_neg hgt, if_pos hlen]
    rfl
  · have hgt : ((content.length : Int) > (mc : Int)) := by
      exact_mod_cast lt_of_not_le hlen
    rw [if_pos hgt, if_neg hlen, hslice]
    rfl

/-- Witness for C5: write `"hola mundo"` to `b.txt`, then read it back with
`max_chars = 4`, observing the truncated content with the marker. -/
theorem write_then_read_roundtrip_witness :
    tool_write_file wsDemo st0 cfgA conS "b.txt" "hola mundo" false =
        Except.ok (Json.obj [("ok", .bool true),
            ("path", .str "/home/AGENT_WORKSPACE/b.txt"),
            ("exists", .bool true), ("size", .num "10")],
          ⟨[(["home", "AGENT_WORKSPACE", "b.txt"], "hola mundo"),
            (["home", "AGENT_WORKSPACE", "a.txt"], "hola")], []⟩)
    ∧ ∃ fp, safe_path wsDemo "b.txt" = Except.ok fp
      ∧ tool_read_file wsDemo
          ⟨[(["home", "AGENT_WORKSPACE", "b.txt"], "hola mundo"),
            (["home", "AGENT_WORKSPACE", "a.txt"], "hola")], []⟩ "b.txt"
          ((4 : Nat) : Int) =
        Except.ok (Json.obj [("ok", .bool true), ("path", .str (pathStr fp)),
          ("content", .str (if ("hola mundo").length ≤ 4 then "hola mundo"
            else String.mk (("hola mundo").data.take 4) ++ "\n... (recortado)"))]) :=
  ⟨rfl,
    write_then_read_roundtrip wsDemo st0 cfgA conS "b.txt" "hola mundo" false
      (Json.obj [("ok", .bool true), ("path", .str "/home/AGENT_WORKSPACE/b.txt"),
        ("exists", .bool true), ("size", .num "10")])
      (⟨[(["home", "AGENT_WORKSPACE", "b.txt"], "hola mundo"),
         (["home", "AGENT_WORKSPACE", "a.txt"], "hola")], []⟩) 4 rfl rfl⟩

/-! ## Claim C2: do tools ever raise? -/

/-- C2 counterexample: a path argument that resolves outside the workspace
makes `tool_write_file` raise `safe_path`'s `ValueError` to its caller
instead of returning a `ToolResult` — the claim's "never raises" is false.
(`run_agent_turn` catches the exception one level up, at the dispatch site.) -/
theorem write_file_raises_on_sandbox_violation :
    tool_write_file wsDemo st0 cfgA conS "../../etc/x" "hola" false =
      Except.error "Ruta inválida: fuera del workspace." := rfl

/-- An existing file is never a prefix of the target's parent after a parent
`mkdir`, so a clear target stays clear. -/
theorem isDirAt_after_mkdir_parent (st st1 : FS) (ws fp : AgPath)
    (hdir : isDirAt st ws fp = false)
    (hmk : mkdirParents st ws fp.dropLast = .ok st1) :
    isDirAt st1 ws fp = false := by
  have hfp : fp ≠ [] := by
    intro h; subst h
    unfold isDirAt at hdir
    simp [List.isPrefixOf] at hdir
  unfold mkdirParents at hmk
  split at hmk
  · cases hmk
  · split at hmk
    · cases hmk; exact hdir
    · cases hmk
      unfold isDirAt at hdir ⊢
      simp only [List.any_cons, not_isPrefixOf_dropLast hfp, Bool.false_or]
      exact hdir

/-- C2 (amended): every failure past the sandbox check is returned as a
`ToolResult` (`ok=true` or `ok=false` with an error string): whenever
`safe_path` accepts the path and the filesystem write itself cannot raise
(no file blocks the parent directory chain and the target is not a
directory), `tool_write_file` returns a `ToolResult` for every argument
value; only sandbox rejections (and OS-level write failures) escape as
exceptions, which the dispatcher in `run_agent_turn` catches. -/
theorem write_file_returns_toolresult_inside_sandbox (ws : AgPath) (st : FS)
    (cfg : Config) (con : Console) (path content : String) (overwrite : Bool)
    (fp : AgPath)
    (hsp : safe_path ws path = Except.ok fp)
    (hanc : st.files.all (fun e => !(e.1.isPrefixOf fp.dropLast)) = true)
    (hdir : isDirAt st ws fp = false) :
    ∃ j st', tool_write_file ws st cfg con path content overwrite = .ok (j, st')
      ∧ (jOk j).isSome = true := by
  simp only [tool_write_file, hsp, ok_bind, pure_eq_ok]
  by_cases hb1 : (pathExists st ws fp && !overwrite) = true
  · rw [if_pos hb1]
    exact ⟨_, _, rfl, rfl⟩
  · rw [if_neg hb1]
    by_cases hb2 : (!require_approval cfg con.ans1) = true
    · rw [if_pos hb2]
      exact ⟨_, _, rfl, rfl⟩
    · rw [if_neg hb2]
      have hnone : st.files.any (fun e => e.1.isPrefixOf fp.dropLast) = false := by
        rw [← Bool.not_eq_true]
        intro hany
        obtain ⟨e, he, hpre⟩ := List.any_eq_true.mp hany
        have := List.all_eq_true.mp hanc e he
        simp [hpre] at this
      have hmk : mkdirParents st ws fp.dropLast =
          .ok (if isDirAt st ws fp.dropLast then st
            else { st with dirs := fp.dropLast :: st.dirs }) := by
        unfold mkdirParents
        rw [if_neg (by rw [hnone]; simp)]
        by_cases hd : isDirAt st ws fp.dropLast = true
        · rw [if_pos hd, if_pos hd]; rfl
        · rw [if_neg hd, if_neg hd]; rfl
      rw [hmk, ok_bind]
      rw [if_neg (by
        rw [isDirAt_after_mkdir_parent st _ ws fp hdir hmk]
        simp)]
      exact ⟨_, _, rfl, rfl⟩

/-- Witness for C2's amended theorem on a fresh in-sandbox path. -/
theorem write_file_returns_toolresult_inside_sandbox_witness :
    safe_path wsDemo "c.txt" = Except.ok ["home", "AGENT_WORKSPACE", "c.txt"]
    ∧ st0.files.all
        (fun e => !(e.1.isPrefixOf (["home", "AGENT_WORKSPACE", "c.txt"].dropLast))) = true
    ∧ isDirAt st0 wsDemo ["home", "AGENT_WORKSPACE", "c.txt"] = false
    ∧ ∃ j st', tool_write_file wsDemo st0 cfgA conS "c.txt" "x" false = .ok (j, st')
        ∧ (jOk j).isSome = true :=
  ⟨rfl, rfl, rfl,
    write_file_returns_toolresult_inside_sandbox wsDemo st0 cfgA conS "c.txt" "x"
      false ["home", "AGENT_WORKSPACE", "c.txt"] rfl rfl rfl⟩

/-! ## Claim C4: rename semantics -/

theorem any_isPre_false_of_all (l : List (AgPath × String)) (p : AgPath)
    (h : l.all (fun e => !(e.1.isPrefixOf p)) = true) :
    l.any (fun e => e.1.isPrefixOf p) = false := by
  rw [← Bool.not_eq_true]
  intro hany
  obtain ⟨e, he, hpre⟩ := List.any_eq_true.mp hany
  have := List.all_eq_true.mp h e he
  simp [hpre] at this

theorem mkdirParents_ok (st : FS) (ws p : AgPath)
    (h : st.files.any (fun e => e.1.isPrefixOf p) = false) :
    mkdirParents st ws p =
      .ok (if isDirAt st ws p then st else { st with dirs := p :: st.dirs }) := by
  unfold mkdirParents
  rw [if_neg (by rw [h]; simp)]
  by_cases hd : isDirAt st ws p = true
  · rw [if_pos hd, if_pos hd]; rfl
  · rw [if_neg hd, if_neg hd]; rfl

/-- Removing file entries cannot create a directory. -/
theorem isDirAt_eraseF (st : FS) (ws p q : AgPath) (h : isDirAt st ws q = false) :
    isDirAt (fsErasePath st p) ws q = false := by
  unfold isDirAt at h ⊢
  simp only [fsErasePath]
  simp only [Bool.or_eq_false_iff] at h ⊢
  obtain ⟨⟨h1, h2⟩, h3⟩ := h
  refine ⟨⟨h1, h2⟩, ?_⟩
  rw [← Bool.not_eq_true]
  intro hany
  obtain ⟨e, he, hpre⟩ := List.any_eq_true.mp hany
  have hmem : e ∈ st.files := (mem_eraseF.mp he).1
  have hcontra : (st.files.any fun e => decide (q ≠ e.1) && List.isPrefixOf q e.1)
      = true := List.any_eq_true.mpr ⟨e, hmem, hpre⟩
  rw [h3] at hcontra
  exact absurd hcontra (by simp)

/-- C4 counterexample: with `src = dst = "a.txt"` naming an existing file and
`overwrite=true`, the unlink-then-rename sequence deletes the file and then
fails: the call returns `ok=false` and the destination does **not** hold the
source's content — the file is gone. -/
theorem rename_same_path_destroys_file :
    isFile st0 ["home", "AGENT_WORKSPACE", "a.txt"] = true
    ∧ tool_rename_file wsDemo st0 cfgA conS "a.txt" "a.txt" true =
        Except.ok (errJ "FileNotFoundError: el origen ya no existe", ⟨[], []⟩)
    ∧ lookupF (FS.mk [] []).files ["home", "AGENT_WORKSPACE", "a.txt"] = none :=
  ⟨rfl, rfl, rfl⟩

/-- C4 (amended): for an existing source file and an existing destination
*file* resolving to a *distinct* path: with `overwrite=false` the call fails
with the destination-exists error and leaves the state unchanged; with
`overwrite=true` and approval granted it finishes with the destination
holding the source's content and the source no longer existing.  (When both
arguments resolve to the same path with `overwrite=true`, the code instead
deletes the file and reports an error — see the counterexample.) -/
theorem rename_file_spec (ws : AgPath) (st : FS) (cfg : Config) (con : Console)
    (src dst : String) (overwrite : Bool) (sp dp : AgPath)
    (hsp : safe_path ws src = Except.ok sp)
    (hdp : safe_path ws dst = Except.ok dp)
    (hsrc : isFile st sp = true)
    (hdst : isFile st dp = true)
    (hne : sp ≠ dp)
    (hdir : isDirAt st ws dp = false)
    (hanc : st.files.all (fun e => !(e.1.isPrefixOf dp.dropLast)) = true) :
    (overwrite = false →
      tool_rename_file ws st cfg con src dst overwrite =
        Except.ok (errJ "Destino ya existe. Usa overwrite=true para reemplazar.", st))
    ∧ (overwrite = true → require_approval cfg con.ans1 = true →
        ∃ st', tool_rename_file ws st cfg con src dst overwrite =
            Except.ok (Json.obj [("ok", .bool true), ("from", .str (pathStr sp)),
              ("to", .str (pathStr dp))], st')
          ∧ lookupF st'.files dp = lookupF st.files sp
          ∧ isFile st' sp = false) := by
  have hexs : pathExists st ws sp = true := by
    unfold pathExists; rw [hsrc]; rfl
  have hexd : pathExists st ws dp = true := by
    unfold pathExists; rw [hdst]; rfl
  constructor
  · intro hov; subst hov
    simp only [tool_rename_file, hsp, hdp, ok_bind, pure_eq_ok, hexs, hsrc, hexd,
      Bool.not_true, Bool.or_self, Bool.false_or, if_false, Bool.not_false,
      Bool.and_true, if_true]
    rfl
  · intro hov happ; subst hov
    have hmk := mkdirParents_ok st ws dp.dropLast
      (any_isPre_false_of_all st.files dp.dropLast hanc)
    set st1 : FS := if isDirAt st ws dp.dropLast then st
      else { st with dirs := dp.dropLast :: st.dirs } with hst1
    have hfiles1 : st1.files = st.files := by
      rw [hst1]; by_cases hd : isDirAt st ws dp.dropLast = true
      · rw [if_pos hd]
      · rw [if_neg hd]
    have hdir1 : isDirAt st1 ws dp = false :=
      isDirAt_after_mkdir_parent st st1 ws dp hdir (hst1 ▸ hmk)
    have hsrc1 : isFile st1 sp = true := by unfold isFile; rw [hfiles1]; exact hsrc
    have hdst1 : isFile st1 dp = true := by unfold isFile; rw [hfiles1]; exact hdst
    have hexd1 : pathExists st1 ws dp = true := by
      unfold pathExists; rw [hdst1]; rfl
    obtain ⟨c, hc⟩ : ∃ c, lookupF st.files sp = some c := by
      unfold isFile at hsrc
      exact Option.isSome_iff_exists.mp hsrc
    have hlook2 : lookupF (fsErasePath st1 dp).files sp = some c := by
      unfold fsErasePath
      rw [lookupF_eraseF_ne st1.files hne, hfiles1, hc]
    have hdir2 : isDirAt (fsErasePath st1 dp) ws dp = false :=
      isDirAt_eraseF st1 ws dp dp hdir1
    simp only [tool_rename_file, hsp, hdp, ok_bind, pure_eq_ok, hexs, hsrc, hexd,
      Bool.not_true, Bool.or_self, Bool.false_or, if_false, Bool.not_false,
      Bool.and_false, happ, hmk, hexd1, hdst1, Bool.true_and, if_true,
      renameStep, hlook2, hdir2]
    refine ⟨_, rfl, ?_, ?_⟩
    · rw [lookupF_insertF_self, hc]
    · unfold isFile
      rw [lookupF_insertF_ne _ _ hne, lookupF_eraseF_self]
      rfl

/-- Witness for C4's amended theorem: renaming `a.txt` onto the existing
`b.txt` fails without `overwrite` and replaces it with `overwrite=true`. -/
theorem rename_file_spec_witness :
    (tool_rename_file wsDemo st0b cfgA conS "a.txt" "b.txt" false =
      Except.ok (errJ "Destino ya existe. Usa overwrite=true para reemplazar.", st0b))
    ∧ (∃ st', tool_rename_file wsDemo st0b cfgA conS "a.txt" "b.txt" true =
          Except.ok (Json.obj [("ok", .bool true),
            ("from", .str (pathStr ["home", "AGENT_WORKSPACE", "a.txt"])),
            ("to", .str (pathStr ["home", "AGENT_WORKSPACE", "b.txt"]))], st')
        ∧ lookupF st'.files ["home", "AGENT_WORKSPACE", "b.txt"] =
            lookupF st0b.files ["home", "AGENT_WORKSPACE", "a.txt"]
        ∧ isFile st' ["home", "AGENT_WORKSPACE", "a.txt"] = false) :=
  ⟨(rename_file_spec wsDemo st0b cfgA conS "a.txt" "b.txt" false
      ["home", "AGENT_WORKSPACE", "a.txt"] ["home", "AGENT_WORKSPACE", "b.txt"]
      rfl rfl rfl rfl (by decide) rfl rfl).1 rfl,
   (rename_file_spec wsDemo st0b cfgA conS "a.txt" "b.txt" true
      ["home", "AGENT_WORKSPACE", "a.txt"] ["home", "AGENT_WORKSPACE", "b.txt"]
      rfl rfl rfl rfl (by decide) rfl rfl).2 rfl rfl⟩

/-! ## Claim C9: the router's creation rule forces `overwrite=True` -/

theorem pathExists_fsWrite_self (st : FS) (ws fp : AgPath) (c : String) :
    pathExists (fsWrite st fp c) ws fp = true := by
  unfold pathExists isFile fsWrite
  rw [lookupF_insertF_self]
  rfl

/-- A `tool_write_file` call with `overwrite=true` on an approved, writable
target always succeeds, performing the write. -/
theorem write_file_overwrite_success (ws : AgPath) (st : FS) (cfg : Config)
    (con : Console) (path content : String) (fp : AgPath)
    (hsp : safe_path ws path = Except.ok fp)
    (happ : require_approval cfg con.ans1 = true)
    (hdir : isDirAt st ws fp = false)
    (hanc : st.files.all (fun e => !(e.1.isPrefixOf fp.dropLast)) = true) :
    ∃ st1, tool_write_file ws st cfg con path content true =
        Except.ok (Json.obj [("ok", .bool true), ("path", .str (pathStr fp)),
          ("exists", .bool true), ("size", .num (toString content.utf8ByteSize))],
          fsWrite st1 fp content)
      ∧ st1.files = st.files := by
  have hmk := mkdirParents_ok st ws fp.dropLast
    (any_isPre_false_of_all st.files fp.dropLast hanc)
  set st1 : FS := if isDirAt st ws fp.dropLast then st
    else { st with dirs := fp.dropLast :: st.dirs } with hst1
  have hfiles1 : st1.files = st.files := by
    rw [hst1]; by_cases hd : isDirAt st ws fp.dropLast = true
    · rw [if_pos hd]
    · rw [if_neg hd]
  have hdir1 : isDirAt st1 ws fp = false :=
    isDirAt_after_mkdir_parent st st1 ws fp hdir (hst1 ▸ hmk)
  refine ⟨st1, ?_, hfiles1⟩
  simp only [tool_write_file, hsp, ok_bind, pure_eq_ok, Bool.not_true,
    Bool.and_false, if_false, happ, hmk, hdir1, pathExists_fsWrite_self]
  rw [show lookupF (fsWrite st1 fp content).files fp = some content from
    lookupF_insertF_self st1.files fp content]
  rfl

/-- C9: the direct-command file-creation rule always calls `tool_write_file`
with `overwrite=True`: on a matching input whose extracted target names an
existing file, the file is replaced subject only to the single approval
prompt; and an `overwrite=True` write can never return the target-exists
refusal that the default `overwrite=False` path produces. -/
theorem direct_create_rule_overwrites (ws : AgPath) (st : FS) (cfg : Config)
    (con : Console) (s g1 g2 : String) (fp : AgPath)
    (hm : matchCreateFile (pyStrip s) = some (g1, g2))
    (hsp : safe_path ws (pyStripChars (pyStripChars (pyStrip g1) ['"']) ['\x27'])
      = Except.ok fp)
    (happ : require_approval cfg con.ans1 = true)
    (hex : isFile st fp = true)
    (hdir : isDirAt st ws fp = false)
    (hanc : st.files.all (fun e => !(e.1.isPrefixOf fp.dropLast)) = true) :
    (∃ msg st', try_direct_command ws st cfg con s = Except.ok (some (msg, st'))
      ∧ lookupF st'.files fp = some g2)
    ∧ (∀ (st2 : FS) (content : String) (j : Json) (st3 : FS),
        tool_write_file ws st2 cfg con
          (pyStripChars (pyStripChars (pyStrip g1) ['"']) ['\x27']) content true =
            Except.ok (j, st3) →
        jError j ≠ some "El archivo ya existe. Usa overwrite=true si quieres sobrescribir.") := by
  constructor
  · obtain ⟨st1, hw, hfiles1⟩ :=
      write_file_overwrite_success ws st cfg con
        (pyStripChars (pyStripChars (pyStrip g1) ['"']) ['\x27']) g2 fp
        hsp happ hdir hanc
    have heq : try_direct_command ws st cfg con s =
        Except.ok (some ("✅ Archivo creado en: " ++ pathStr fp ++ " | existe="
          ++ "True" ++ " | size=" ++ toString g2.utf8ByteSize ++ " bytes",
          fsWrite st1 fp g2)) := by
      simp only [try_direct_command, hm, hw, pyTruthyOpt, pyTruthy, objGet,
        objGet.lookupJ, jIndex, pyStr]
      rfl
    exact ⟨_, _, heq, lookupF_insertF_self st1.files fp g2⟩
  · intro st2 content j st3 hw hErr
    cases hsp2 : safe_path ws (pyStripChars (pyStripChars (pyStrip g1) ['"']) ['\x27']) with
    | error e =>
      simp only [tool_write_file, hsp2, err_bind] at hw
      cases hw
    | ok fp2 =>
      simp only [tool_write_file, hsp2, ok_bind, pure_eq_ok, Bool.not_true,
        Bool.and_false, if_false] at hw
      by_cases hb2 : (!require_approval cfg con.ans1) = true
      · rw [if_pos hb2] at hw
        cases hw
        simp [jError, errJ, objGet, objGet.lookupJ] at hErr
      · rw [if_neg hb2] at hw
        cases hmk2 : mkdirParents st2 ws fp2.dropLast with
        | error m =>
          rw [hmk2, err_bind] at hw
          cases hw
        | ok st1' =>
          rw [hmk2, ok_bind] at hw
          by_cases hdir2 : isDirAt st1' ws fp2 = true
          · rw [if_pos hdir2] at hw
            cases hw
          · rw [if_neg hdir2] at hw
            cases hw
            simp [jError, objGet, objGet.lookupJ] at hErr

/-- Witness for C9: `crea el archivo a.txt con el contenido: nuevo` replaces
the existing `a.txt`. -/
theorem direct_create_rule_overwrites_witness :
    matchCreateFile (pyStrip "crea el archivo a.txt con el contenido: nuevo") =
        some ("a.txt", "nuevo")
    ∧ ∃ msg st', try_direct_command wsDemo st0 cfgA conS
          "crea el archivo a.txt con el contenido: nuevo" = Except.ok (some (msg, st'))
        ∧ lookupF st'.files ["home", "AGENT_WORKSPACE", "a.txt"] = some "nuevo" :=
  ⟨rfl,
    (direct_create_rule_overwrites wsDemo st0 cfgA conS
      "crea el archivo a.txt con el contenido: nuevo" "a.txt" "nuevo"
      ["home", "AGENT_WORKSPACE", "a.txt"] rfl rfl rfl rfl rfl rfl).1⟩

/-! ## Claim C6: `organize_folder` idempotence (move mode) -/

theorem organizeStep_dirs (ws base : AgPath) (mode : String) (acc : OrgAcc)
    (x : AgPath × String) :
    (organizeStep ws base mode acc x).st.dirs = acc.st.dirs := by
  unfold organizeStep
  split
  · rfl
  · dsimp only
    split
    · rfl
    · by_cases hm : mode = "move" <;> simp [hm]

theorem org_fold_dirs (ws base : AgPath) (mode : String) :
    ∀ (l : List (AgPath × String)) (acc : OrgAcc),
      (l.foldl (organizeStep ws base mode) acc).st.dirs = acc.st.dirs := by
  intro l
  induction l with
  | nil => intro acc; rfl
  | cons x rest ih =>
    intro acc
    rw [List.foldl_cons, ih, organizeStep_dirs]

/-- A directory witness survives growing the directory list and keeping the
files. -/
theorem isDirAt_mono (st st' : FS) (ws q : AgPath) (hf : st'.files = st.files)
    (hd : ∀ d ∈ st.dirs, d ∈ st'.dirs) (h : isDirAt st ws q = true) :
    isDirAt st' ws q = true := by
  unfold isDirAt at h ⊢
  rw [hf]
  simp only [Bool.or_eq_true] at h ⊢
  rcases h with (h | h) | h
  · exact Or.inl (Or.inl h)
  · obtain ⟨d, hdm, hdp⟩ := List.any_eq_true.mp h
    exact Or.inl (Or.inr (List.any_eq_true.mpr ⟨d, hd d hdm, hdp⟩))
  · exact Or.inr h

/-- A directory exists at every ancestor of an existing directory. -/
theorem isDirAt_of_append (st : FS) (ws : AgPath) (p : AgPath) (x : String)
    (h : isDirAt st ws (p ++ [x]) = true) : isDirAt st ws p = true := by
  have hself : p <+: p ++ [x] := List.prefix_append p [x]
  unfold isDirAt at h ⊢
  simp only [Bool.or_eq_true] at h ⊢
  rcases h with (h | h) | h
  · exact Or.inl (Or.inl (List.isPrefixOf_iff_prefix.mpr
      (hself.trans (List.isPrefixOf_iff_prefix.mp h))))
  · obtain ⟨d, hdm, hdp⟩ := List.any_eq_true.mp h
    exact Or.inl (Or.inr (List.any_eq_true.mpr ⟨d, hdm,
      List.isPrefixOf_iff_prefix.mpr (hself.trans (List.isPrefixOf_iff_prefix.mp hdp))⟩))
  · obtain ⟨e, hem, hep⟩ := List.any_eq_true.mp h
    rw [Bool.and_eq_true, decide_eq_true_eq] at hep
    have hpre : p <+: e.1 := hself.trans (List.isPrefixOf_iff_prefix.mp hep.2)
    refine Or.inr (List.any_eq_true.mpr ⟨e, hem, ?_⟩)
    rw [Bool.and_eq_true, decide_eq_true_eq]
    refine ⟨?_, List.isPrefixOf_iff_prefix.mpr hpre⟩
    intro hpe
    subst hpe
    have hlen := List.IsPrefix.length_le (List.isPrefixOf_iff_prefix.mp hep.2)
    simp at hlen

/-- Dichotomy of one move-mode organize step on a top-level file: either the
file vanished (a skip), or it is moved to a strictly deeper path below the
base, with the directories untouched. -/
theorem organizeStep_move_cases (ws base : AgPath) (acc : OrgAcc)
    (x : AgPath × String) (hx : isTop base x.1) :
    (lookupF acc.st.files x.1 = none ∧
      organizeStep ws base "move" acc x = { acc with skipped := acc.skipped + 1 })
    ∨ ∃ c rd, lookupF acc.st.files x.1 = some c
        ∧ base.length + 2 ≤ rd.length ∧ base.isPrefixOf rd = true
        ∧ (organizeStep ws base "move" acc x).st.files
            = insertF (eraseF acc.st.files x.1) rd c
        ∧ (organizeStep ws base "move" acc x).st.dirs = acc.st.dirs := by
  rcases hlk : lookupF acc.st.files x.1 with _ | c
  · left
    constructor
    · rfl
    · unfold organizeStep
      rw [hlk]
  · right
    have hne : base ++ [groupOf (pyLower (pySuffix (lastName x.1))), lastName x.1]
        ≠ x.1 := by
      intro h
      have hlen := congrArg List.length h
      simp only [List.length_append, List.length_cons, List.length_nil, hx.1] at hlen
      omega
    have hpre1 : base.isPrefixOf (orgDest base x.1) = true :=
      List.isPrefixOf_iff_prefix.mpr (List.prefix_append base _)
    have hpre2 : base.isPrefixOf (orgDest base x.1 ++ [lastName x.1]) = true :=
      List.isPrefixOf_iff_prefix.mpr
        ((List.prefix_append base _).trans (List.prefix_append _ _))
    by_cases hdd : isDirAt acc.st ws
        (base ++ [groupOf (pyLower (pySuffix (lastName x.1))), lastName x.1]) = true
    · refine ⟨c, orgDest base x.1 ++ [lastName x.1], rfl, ?_, hpre2, ?_, ?_⟩
      · simp [orgDest]
      · unfold organizeStep
        rw [hlk]
        simp only [if_neg hne, hdd, if_true, if_pos rfl]
        rfl
      · unfold organizeStep
        rw [hlk]
        simp only [if_neg hne, hdd, if_true, if_pos rfl]
    · refine ⟨c, orgDest base x.1, rfl, ?_, hpre1, ?_, ?_⟩
      · simp [orgDest]
      · unfold organizeStep
        rw [hlk]
        simp only [if_neg hne, hdd, if_false, if_pos rfl]
        rfl
      · unfold organizeStep
        rw [hlk]
        simp only [if_neg hne, hdd, if_false, if_pos rfl]

/-- After the move loop has run over a snapshot containing every top-level
file, no top-level file remains. -/
theorem org_fold_no_top (ws base : AgPath) :
    ∀ (l : List (AgPath × String)) (acc : OrgAcc),
      (∀ x ∈ l, isTop base x.1) →
      (∀ e ∈ acc.st.files, isTop base e.1 → e.1 ∈ l.map Prod.fst) →
      ∀ e ∈ (l.foldl (organizeStep ws base "move") acc).st.files,
        ¬ isTop base e.1 := by
  intro l
  induction l with
  | nil =>
    intro acc _ hinv e he htop
    simpa using hinv e he htop
  | cons x rest ih =>
    intro acc hl hinv
    rw [List.foldl_cons]
    apply ih
    · intro y hy; exact hl y (List.mem_cons_of_mem x hy)
    · intro e he htop
      rcases organizeStep_move_cases ws base acc x (hl x (List.mem_cons_self x rest)) with
        ⟨hnone, hstepeq⟩ | ⟨c, rd, _, hlen, _, hfiles, _⟩
      · rw [hstepeq] at he
        have hmem : e ∈ acc.st.files := he
        have hmap := hinv e hmem htop
        rw [List.map_cons] at hmap
        rcases List.mem_cons.mp hmap with h1 | h1
        · exfalso
          have hsome := lookupF_isSome_of_mem hmem
          rw [h1, hnone] at hsome
          simp at hsome
        · exact h1
      · rw [hfiles] at he
        rcases mem_insertF.mp he with h1 | ⟨h1, _⟩
        · exfalso
          have : e.1 = rd := by rw [h1]
          rw [this] at htop
          have := htop.1
          omega
        · have hmem := (mem_eraseF.mp h1).1
          have hne2 := (mem_eraseF.mp h1).2
          have hmap := hinv e hmem htop
          rw [List.map_cons] at hmap
          rcases List.mem_cons.mp hmap with h2 | h2
          · exact absurd h2 hne2
          · exact h2

/-- Every file after the move loop is either an original file or lies at
least two levels below the base. -/
theorem org_fold_origin (ws base : AgPath) :
    ∀ (l : List (AgPath × String)) (acc : OrgAcc),
      (∀ x ∈ l, isTop base x.1) →
      ∀ e ∈ (l.foldl (organizeStep ws base "move") acc).st.files,
        e ∈ acc.st.files
          ∨ (base.length + 2 ≤ e.1.length ∧ base.isPrefixOf e.1 = true) := by
  intro l
  induction l with
  | nil => intro acc _ e he; exact Or.inl he
  | cons x rest ih =>
    intro acc hl e he
    rw [List.foldl_cons] at he
    have hstep := ih (organizeStep ws base "move" acc x)
      (fun y hy => hl y (List.mem_cons_of_mem x hy)) e he
    rcases hstep with hmem | hdeep
    · rcases organizeStep_move_cases ws base acc x (hl x (List.mem_cons_self x rest)) with
        ⟨_, hstepeq⟩ | ⟨c, rd, _, hlen, hpre, hfiles, _⟩
      · rw [hstepeq] at hmem; exact Or.inl hmem
      · rw [hfiles] at hmem
        rcases mem_insertF.mp hmem with h1 | ⟨h1, _⟩
        · right
          have : e.1 = rd := by rw [h1]
          rw [this]
          exact ⟨hlen, hpre⟩
        · exact Or.inl (mem_eraseF.mp h1).1
    · exact Or.inr hdeep

/-- The move loop never destroys a directory witness at the level just below
the base (the category folders). -/
theorem org_fold_dirAt (ws base q : AgPath) (hqlen : q.length = base.length + 1) :
    ∀ (l : List (AgPath × String)) (acc : OrgAcc),
      (∀ x ∈ l, isTop base x.1) →
      isDirAt acc.st ws q = true →
      isDirAt (l.foldl (organizeStep ws base "move") acc).st ws q = true := by
  intro l
  induction l with
  | nil => intro acc _ h; exact h
  | cons x rest ih =>
    intro acc hl h
    rw [List.foldl_cons]
    apply ih _ (fun y hy => hl y (List.mem_cons_of_mem x hy))
    rcases organizeStep_move_cases ws base acc x (hl x (List.mem_cons_self x rest)) with
      ⟨_, hstepeq⟩ | ⟨c, rd, _, hlen, _, hfiles, hdirs⟩
    · rw [hstepeq]; exact h
    · have hx := hl x (List.mem_cons_self x rest)
      unfold isDirAt at h ⊢
      rw [hfiles, hdirs]
      simp only [Bool.or_eq_true] at h ⊢
      rcases h with (h | h) | h
      · exact Or.inl (Or.inl h)
      · exact Or.inl (Or.inr h)
      · obtain ⟨e0, hmem, hcond⟩ := List.any_eq_true.mp h
        rw [Bool.and_eq_true, decide_eq_true_eq] at hcond
        obtain ⟨hne0, hpre0⟩ := hcond
        by_cases hex : e0.1 = x.1
        · exfalso
          have hq : q <+: e0.1 := List.isPrefixOf_iff_prefix.mp hpre0
          have hlt : q.length < e0.1.length := by
            rcases lt_or_eq_of_le (List.IsPrefix.length_le hq) with h' | h'
            · exact h'
            · exact absurd (List.IsPrefix.eq_of_length hq h') hne0
          rw [hex, hx.1] at hlt
          omega
        · right
          apply List.any_eq_true.mpr
          by_cases herd : e0.1 = rd
          · refine ⟨(rd, c), mem_insertF.mpr (Or.inl rfl), ?_⟩
            rw [Bool.and_eq_true, decide_eq_true_eq]
            exact ⟨herd ▸ hne0, herd ▸ hpre0⟩
          · refine ⟨e0, mem_insertF.mpr (Or.inr ⟨mem_eraseF.mpr ⟨hmem, hex⟩, herd⟩), ?_⟩
            rw [Bool.and_eq_true, decide_eq_true_eq]
            exact ⟨hne0, hpre0⟩

/-- Dissection of a successful `mkdir -p`. -/
theorem mkdirParents_ok_elim (st : FS) (ws p : AgPath) (st' : FS)
    (h : mkdirParents st ws p = .ok st') :
    st'.files = st.files
    ∧ (∀ d ∈ st.dirs, d ∈ st'.dirs)
    ∧ st.files.any (fun e => e.1.isPrefixOf p) = false
    ∧ isDirAt st' ws p = true := by
  unfold mkdirParents at h
  by_cases h1 : st.files.any (fun e => e.1.isPrefixOf p) = true
  · rw [if_pos h1] at h; cases h
  · rw [if_neg h1] at h
    have h1' : st.files.any (fun e => e.1.isPrefixOf p) = false :=
      Bool.not_eq_true _ |>.mp h1
    by_cases h2 : isDirAt st ws p = true
    · rw [if_pos h2] at h
      cases h
      exact ⟨rfl, fun d hd => hd, h1', h2⟩
    · rw [if_neg h2] at h
      cases h
      refine ⟨rfl, fun d hd => List.mem_cons_of_mem _ hd, h1', ?_⟩
      unfold isDirAt
      have : ({ st with dirs := p :: st.dirs } : FS).dirs.any
          (fun d => p.isPrefixOf d) = true :=
        List.any_eq_true.mpr ⟨p, List.mem_cons_self p st.dirs,
          List.isPrefixOf_iff_prefix.mpr (List.prefix_refl p)⟩
      rw [this]
      simp

/-- Dissection of a successful category-folder creation loop. -/
theorem mkdirFold_ok_elim (ws base : AgPath) :
    ∀ (fs : List String) (st stm : FS),
      fs.foldlM (fun s folder => mkdirParents s ws (base ++ [folder])) st = .ok stm →
      stm.files = st.files
      ∧ (∀ d ∈ st.dirs, d ∈ stm.dirs)
      ∧ ∀ f ∈ fs, st.files.any (fun e => e.1.isPrefixOf (base ++ [f])) = false
          ∧ isDirAt stm ws (base ++ [f]) = true := by
  intro fs
  induction fs with
  | nil =>
    intro st stm h
    rw [List.foldlM_nil] at h
    cases h
    exact ⟨rfl, fun d hd => hd, by simp⟩
  | cons f fs ih =>
    intro st stm h
    rw [List.foldlM_cons] at h
    cases hmk : mkdirParents st ws (base ++ [f]) with
    | error m => rw [hmk, err_bind] at h; cases h
    | ok st' =>
      rw [hmk, ok_bind] at h
      obtain ⟨hf1, hd1, hany1, hdir1⟩ := mkdirParents_ok_elim st ws (base ++ [f]) st' hmk
      obtain ⟨hf2, hd2, hrest⟩ := ih st' stm h
      refine ⟨hf2.trans hf1, fun d hd => hd2 d (hd1 d hd), ?_⟩
      intro g hg
      rcases List.mem_cons.mp hg with hg | hg
      · subst hg
        exact ⟨hany1, isDirAt_mono st' stm ws (base ++ [g]) (hf2.trans hf1 ▸ hf2)
          hd2 hdir1⟩
      · obtain ⟨ha, hb⟩ := hrest g hg
        rw [hf1] at ha
        exact ⟨ha, hb⟩

/-- The category-folder loop is the identity when the folders already exist
and no file blocks them. -/
theorem mkdirFold_id (ws base : AgPath) :
    ∀ (fs : List String) (st : FS),
      (∀ f ∈ fs, st.files.any (fun e => e.1.isPrefixOf (base ++ [f])) = false
        ∧ isDirAt st ws (base ++ [f]) = true) →
      fs.foldlM (fun s folder => mkdirParents s ws (base ++ [folder])) st = .ok st := by
  intro fs
  induction fs with
  | nil => intro st _; rfl
  | cons f fs ih =>
    intro st hfs
    obtain ⟨hany, hdir⟩ := hfs f (List.mem_cons_self f fs)
    have hmk : mkdirParents st ws (base ++ [f]) = .ok st := by
      unfold mkdirParents
      rw [if_neg (by rw [hany]; simp), if_pos hdir]
      rfl
    rw [List.foldlM_cons, hmk, ok_bind]
    exact ih st (fun g hg => hfs g (List.mem_cons_of_mem f hg))

theorem top_filter_mem {base : AgPath} {e : AgPath × String}
    {l : List (AgPath × String)} :
    e ∈ l.filter (fun e => e.1.length = base.length + 1 && base.isPrefixOf e.1)
    ↔ e ∈ l ∧ isTop base e.1 := by
  rw [List.mem_filter]
  unfold isTop
  simp

/-- C6: `tool_organize_folder` is idempotent in move mode — after a
successful run (approval granted), running it again (approval granted) moves
nothing: the second run returns `moved_count = 0`, `skipped = 0`, an empty
`moved` list, and exactly the same filesystem. -/
theorem organize_folder_idempotent (ws : AgPath) (st : FS) (cfg : Config)
    (con : Console) (subdir : String) (j1 : Json) (st1 : FS)
    (happ : require_approval cfg con.ans1 = true)
    (h1 : tool_organize_folder ws st cfg con subdir "move" = Except.ok (j1, st1))
    (hok : jOk j1 = some true) :
    tool_organize_folder ws st1 cfg con subdir "move" =
      Except.ok (Json.obj [("ok", .bool true), ("moved_count", .num "0"),
        ("skipped", .num "0"), ("moved", .arr [])], st1) := by
  unfold tool_organize_folder at h1 ⊢
  rw [if_neg (by decide)] at h1 ⊢
  cases hb : resolveBase ws subdir with
  | error e => rw [hb, err_bind] at h1; cases h1
  | ok base =>
    rw [hb, ok_bind] at h1
    rw [ok_bind]
    by_cases hex : (!(pathExists st ws base)) = true
    · rw [if_pos hex] at h1
      rw [pure_eq_ok] at h1
      injection h1 with h1'
      injection h1' with hj hst
      rw [← hj] at hok
      simp [jOk, errJ, objGet, objGet.lookupJ] at hok
    · rw [if_neg hex] at h1
      rw [if_neg (by rw [happ]; simp)] at h1
      cases hmk : mkdirCats st ws base with
      | error m => rw [hmk, err_bind] at h1; cases h1
      | ok stm =>
        rw [hmk, ok_bind, pure_eq_ok] at h1
        injection h1 with h1'
        injection h1' with hj hst
        subst hst
        -- facts about the first run
        have hfold := mkdirFold_ok_elim ws base
          ((EXT_GROUPS.map Prod.fst) ++ ["otros"]) st stm hmk
        obtain ⟨hfm, hdm, hff⟩ := hfold
        have hl : ∀ x ∈ stm.files.filter
            (fun e => e.1.length = base.length + 1 && base.isPrefixOf e.1),
            isTop base x.1 := fun x hx => (top_filter_mem.mp hx).2
        have hinv : ∀ e ∈ stm.files, isTop base e.1 →
            e.1 ∈ (stm.files.filter
              (fun e => e.1.length = base.length + 1 && base.isPrefixOf e.1)).map
                Prod.fst :=
          fun e he ht => List.mem_map_of_mem Prod.fst (top_filter_mem.mpr ⟨he, ht⟩)
        have hnotop := org_fold_no_top ws base
          (stm.files.filter (fun e => e.1.length = base.length + 1 && base.isPrefixOf e.1))
          ⟨stm, [], 0⟩ hl hinv
        have horigin := org_fold_origin ws base
          (stm.files.filter (fun e => e.1.length = base.length + 1 && base.isPrefixOf e.1))
          ⟨stm, [], 0⟩ hl
        have hcatdir : ∀ f ∈ (EXT_GROUPS.map Prod.fst) ++ ["otros"],
            isDirAt (((stm.files.filter (fun e => e.1.length = base.length + 1
              && base.isPrefixOf e.1)).foldl (organizeStep ws base "move")
                ⟨stm, [], 0⟩).st) ws (base ++ [f]) = true := by
          intro f hf
          exact org_fold_dirAt ws base (base ++ [f]) (by simp)
            _ ⟨stm, [], 0⟩ hl ((hff f hf).2)
        -- the second run
        have hexists2 : pathExists (((stm.files.filter
            (fun e => e.1.length = base.length + 1 && base.isPrefixOf e.1)).foldl
              (organizeStep ws base "move") ⟨stm, [], 0⟩).st) ws base = true := by
          have hdir := hcatdir "otros" (by simp)
          have := isDirAt_of_append _ ws base "otros" hdir
          unfold pathExists
          rw [this]
          simp
        rw [if_neg (by rw [hexists2]; simp)]
        rw [if_neg (by rw [happ]; simp)]
        have hcats2 : mkdirCats (((stm.files.filter
            (fun e => e.1.length = base.length + 1 && base.isPrefixOf e.1)).foldl
              (organizeStep ws base "move") ⟨stm, [], 0⟩).st) ws base =
            .ok (((stm.files.filter
              (fun e => e.1.length = base.length + 1 && base.isPrefixOf e.1)).foldl
                (organizeStep ws base "move") ⟨stm, [], 0⟩).st) := by
          unfold mkdirCats
          apply mkdirFold_id
          intro f hf
          refine ⟨?_, hcatdir f hf⟩
          rw [← Bool.not_eq_true]
          intro hany
          obtain ⟨e, he, hpre⟩ := List.any_eq_true.mp hany
          rcases horigin e he with hmem | ⟨hdeep, _⟩
          · rw [hfm] at hmem
            have := (hff f hf).1
            rw [← Bool.not_eq_true] at this
            exact this (List.any_eq_true.mpr ⟨e, hmem, hpre⟩)
          · have hle := List.IsPrefix.length_le (List.isPrefixOf_iff_prefix.mp hpre)
            simp only [List.length_append, List.length_cons, List.length_nil] at hle
            omega
        rw [hcats2, ok_bind]
        have hfilter2 : (((stm.files.filter
            (fun e => e.1.length = base.length + 1 && base.isPrefixOf e.1)).foldl
              (organizeStep ws base "move") ⟨stm, [], 0⟩).st).files.filter
            (fun e => e.1.length = base.length + 1 && base.isPrefixOf e.1) = [] := by
          apply List.filter_eq_nil_iff.mpr
          intro e he
          have := hnotop e he
          unfold isTop at this
          simp only [Bool.and_eq_true, decide_eq_true_eq]
          intro hcontra
          exact this ⟨hcontra.1, hcontra.2⟩
        simp only [hfilter2, List.foldl_nil, pure_eq_ok]
        rfl

/-- Witness for C6: organizing the demo workspace moves `a.txt` into `docs`;
the second run moves nothing and leaves the filesystem identical. -/
theorem organize_folder_idempotent_witness :
    tool_organize_folder wsDemo st0 cfgA conS "" "move" =
        Except.ok (Json.obj [("ok", .bool true), ("moved_count", .num "1"),
            ("skipped", .num "0"),
            ("moved", .arr [Json.obj [("from", .str "a.txt"), ("to", .str "docs/a.txt")]])],
          ⟨[(["home", "AGENT_WORKSPACE", "docs", "a.txt"], "hola")],
           [["home", "AGENT_WORKSPACE", "otros"], ["home", "AGENT_WORKSPACE", "code"],
            ["home", "AGENT_WORKSPACE", "docs"], ["home", "AGENT_WORKSPACE", "video"],
            ["home", "AGENT_WORKSPACE", "audio"], ["home", "AGENT_WORKSPACE", "imagenes"]]⟩)
    ∧ tool_organize_folder wsDemo
        ⟨[(["home", "AGENT_WORKSPACE", "docs", "a.txt"], "hola")],
         [["home", "AGENT_WORKSPACE", "otros"], ["home", "AGENT_WORKSPACE", "code"],
          ["home", "AGENT_WORKSPACE", "docs"], ["home", "AGENT_WORKSPACE", "video"],
          ["home", "AGENT_WORKSPACE", "audio"], ["home", "AGENT_WORKSPACE", "imagenes"]]⟩
        cfgA conS "" "move" =
      Except.ok (Json.obj [("ok", .bool true), ("moved_count", .num "0"),
          ("skipped", .num "0"), ("moved", .arr [])],
        ⟨[(["home", "AGENT_WORKSPACE", "docs", "a.txt"], "hola")],
         [["home", "AGENT_WORKSPACE", "otros"], ["home", "AGENT_WORKSPACE", "code"],
          ["home", "AGENT_WORKSPACE", "docs"], ["home", "AGENT_WORKSPACE", "video"],
          ["home", "AGENT_WORKSPACE", "audio"], ["home", "AGENT_WORKSPACE", "imagenes"]]⟩) :=
  ⟨rfl,
    organize_folder_idempotent wsDemo st0 cfgA conS ""
      (Json.obj [("ok", .bool true), ("moved_count", .num "1"),
        ("skipped", .num "0"),
        ("moved", .arr [Json.obj [("from", .str "a.txt"), ("to", .str "docs/a.txt")]])])
      (⟨[(["home", "AGENT_WORKSPACE", "docs", "a.txt"], "hola")],
        [["home", "AGENT_WORKSPACE", "otros"], ["home", "AGENT_WORKSPACE", "code"],
         ["home", "AGENT_WORKSPACE", "docs"], ["home", "AGENT_WORKSPACE", "video"],
         ["home", "AGENT_WORKSPACE", "audio"], ["home", "AGENT_WORKSPACE", "imagenes"]]⟩)
      rfl rfl rfl⟩

end Agente
